import Mathlib

/-!
# gologger: a shallow embedding of `src/gologger/gologger.go`

The development models the asynchronous leveled logger of the repository:
its header formatter (`itoa`, `formatHeader`), the value concatenation
(`concatInterfaces`, `colorConcatInterfaces`), the routing table with its
controller operations, the bounded message channel with the consumer step
(`writeChanGoroutine`) and `Close`.

Conventions of the embedding

* Go `string` and `[]byte` are lists of bytes (`Bytes`); `lit` gives the bytes
  of an ASCII literal.
* Go `int` is `Int`; where the machine width matters the 64 bit wrap is
  explicit (`wrap64`, `and64`).
* A run-time panic or a goroutine that blocks for ever is an explicit
  `Fault`; operations return `Except Fault _`.
* Go maps keyed by `LogLvl` are total functions into slices, the absent key
  giving the nil (empty) slice, which is what a Go map lookup returns.
* A slice that the logger makes itself is held by its elements: nothing outside
  the logger refers to its array. A slice of sinks that a caller hands over is
  held as the slice it is, a window on an array in the caller's memory, so that
  two levels can share one array (`Slice`, `Memory`, `DestSlice`).
-/

namespace Gologger

/-! ## Bytes and machine integers -/

/-- Go `string` and `[]byte`: a sequence of bytes. -/
abbrev Bytes := List Nat

/-- The bytes of an ASCII literal. -/
def lit (s : String) : Bytes := s.toList.map Char.toNat

/-- Reduction of an integer to the signed 64 bit range (two's complement). -/
def wrap64 (x : Int) : Int := (x + 9223372036854775808) % 18446744073709551616 - 9223372036854775808

/-- The unsigned 64 bit pattern of a Go `int`. -/
def toU64 (x : Int) : Nat := (x % 18446744073709551616).toNat

/-- Go `a & b` on `int`. -/
def and64 (a b : Int) : Int := wrap64 (Int.ofNat (toU64 a &&& toU64 b))

/-- Go `a | b` on `int`. -/
def or64 (a b : Int) : Int := wrap64 (Int.ofNat (toU64 a ||| toU64 b))

/-- Go `byte(x)` for an `int` x: the low eight bits. -/
def toByte (x : Int) : Nat := (x % 256).toNat

/-- Go `s[i]` on a slice with an `int` index; `none` is the index-out-of-range panic. -/
def sliceGet {α : Type} (xs : List α) (i : Int) : Option α :=
  if 0 ≤ i then xs.get? i.toNat else none

/-- Go `s[i] = v` on a slice with an `int` index; `none` is the index-out-of-range panic. -/
def sliceSet {α : Type} (xs : List α) (i : Int) (v : α) : Option (List α) :=
  if 0 ≤ i ∧ i.toNat < xs.length then some (xs.set i.toNat v) else none

/-- The decimal digits of a natural number, most significant first (the digits
that `Nat.repr` prints), as bytes. -/
def decimal (n : Nat) : Bytes := (Nat.toDigits 10 n).map Char.toNat

/-! ## Formatting flags (lines 84-95) -/

def Ldate : Int := 1
def Ltime : Int := 2
def Lmicroseconds : Int := 4
def Llongfile : Int := 8
def Lshortfile : Int := 16
def LUTC : Int := 32
def LNoStackTrace : Int := 64
def LstdFlags : Int := 3

/-! ## `time.Time` as far as `formatHeader` reads it -/

/-- The broken-down reading of an instant in one time zone: what `Date()`,
`Clock()` and `Nanosecond()` return. -/
structure Civil where
  year : Int
  month : Int
  day : Int
  hour : Int
  minute : Int
  second : Int
  nanosecond : Int
deriving DecidableEq, Repr

/-- A `time.Time`: its reading in the local zone and its reading in UTC. -/
structure Time where
  loc : Civil
  utc : Civil
deriving DecidableEq, Repr

/-- Go `t.UTC()`. -/
def Time.UTC (t : Time) : Time := { loc := t.utc, utc := t.utc }

/-- The ranges the `time` package documents for the fields of an instant with a
four digit year. -/
def Civil.wf (c : Civil) : Prop :=
  0 ≤ c.year ∧ c.year ≤ 9999 ∧ 1 ≤ c.month ∧ c.month ≤ 12 ∧ 1 ≤ c.day ∧ c.day ≤ 31 ∧
  0 ≤ c.hour ∧ c.hour ≤ 23 ∧ 0 ≤ c.minute ∧ c.minute ≤ 59 ∧ 0 ≤ c.second ∧ c.second ≤ 59 ∧
  0 ≤ c.nanosecond ∧ c.nanosecond ≤ 999999999

instance (c : Civil) : Decidable c.wf :=
  inferInstanceAs (Decidable (0 ≤ c.year ∧ c.year ≤ 9999 ∧ 1 ≤ c.month ∧ c.month ≤ 12 ∧
    1 ≤ c.day ∧ c.day ≤ 31 ∧ 0 ≤ c.hour ∧ c.hour ≤ 23 ∧ 0 ≤ c.minute ∧ c.minute ≤ 59 ∧
    0 ≤ c.second ∧ c.second ≤ 59 ∧ 0 ≤ c.nanosecond ∧ c.nanosecond ≤ 999999999))

/-! ## `itoa` (lines 507-522) -/

/-- The loop of `itoa` together with the final store and the append.
`slots` is `bp + 1`, the number of cells of `b [20]byte` not yet written; `acc` is
`b[bp+1:]`. With no cell left the next store `b[bp]` has `bp = -1` and panics. -/
def itoaLoop : (slots : Nat) → (i wid : Int) → (acc : Bytes) → Option Bytes
  | 0, _, _, _ => none
  | s + 1, i, wid, acc =>
    if i ≥ 10 ∨ wid > 1 then
      let wid1 := wrap64 (wid - 1)
      let q := Int.tdiv i 10
      itoaLoop s q wid1 (toByte (48 + i - q * 10) :: acc)
    else
      some (toByte (48 + i) :: acc)

/-- `itoa(buf, i, wid)`: the new contents of `*buf`, or `none` when a store into
`b` is out of range. -/
def itoa (buf : Bytes) (i wid : Int) : Option Bytes :=
  (itoaLoop 20 i wid []).map (fun digits => buf ++ digits)

/-! ## `formatHeader` (lines 456-505) -/

/-- The loop of lines 491-496: `i` runs from `len(file)-1` down to 1. -/
def shortLoop (file : Bytes) : Nat → Bytes
  | 0 => file
  | i + 1 => if file.get? (i + 1) = some 47 then file.drop (i + 2) else shortLoop file i

/-- The value of `short` after the loop of lines 490-496. -/
def shortFile (file : Bytes) : Bytes := shortLoop file (file.length - 1)

/-- `formatHeader(settingsFlags, buf, t, file, line)`: the new contents of `*buf`. -/
def formatHeader (settingsFlags : Int) (buf : Bytes) (t : Time) (file : Bytes) (line : Int) :
    Option Bytes := do
  let buf ←
    if and64 settingsFlags (or64 Ldate (or64 Ltime Lmicroseconds)) ≠ 0 then do
      let t := if and64 settingsFlags LUTC ≠ 0 then t.UTC else t
      let buf ←
        if and64 settingsFlags Ldate ≠ 0 then do
          let buf ← itoa buf t.loc.year 4
          let buf := buf ++ [47]
          let buf ← itoa buf t.loc.month 2
          let buf := buf ++ [47]
          let buf ← itoa buf t.loc.day 2
          pure (buf ++ [32])
        else pure buf
      if and64 settingsFlags (or64 Ltime Lmicroseconds) ≠ 0 then do
        let buf ← itoa buf t.loc.hour 2
        let buf := buf ++ [58]
        let buf ← itoa buf t.loc.minute 2
        let buf := buf ++ [58]
        let buf ← itoa buf t.loc.second 2
        let buf ←
          if and64 settingsFlags Lmicroseconds ≠ 0 then
            itoa (buf ++ [46]) (Int.tdiv t.loc.nanosecond 1000) 6
          else pure buf
        pure (buf ++ [32])
      else pure buf
    else pure buf
  if and64 settingsFlags LNoStackTrace = 0 then
    if and64 settingsFlags (or64 Lshortfile Llongfile) ≠ 0 then do
      let file := if and64 settingsFlags Lshortfile ≠ 0 then shortFile file else file
      let buf := buf ++ file
      let buf := buf ++ [58]
      let buf ← itoa buf line (-1)
      pure (buf ++ lit ": ")
    else pure buf
  else pure buf

/-! ## Values, `concatInterfaces` and `colorConcatInterfaces` (lines 385-406) -/

/-- The `interface{}` values handed to the logging calls, as far as their default
string form is concerned. -/
inductive Value
  | str (s : Bytes)
  | int (i : Int)
  | bool (b : Bool)
deriving DecidableEq, Repr

/-- Go `fmt.Sprintf("%v", v)`: the default string form of a value. -/
def sprintV : Value → Bytes
  | .str s => s
  | .int i => if i < 0 then 45 :: decimal i.natAbs else decimal i.toNat
  | .bool b => if b then lit "true" else lit "false"

/-- Modelled from the spec: `concat.Strings` of package `concat`, which is not under
src/; it joins its arguments in order ("each positional value is converted to its
default string representation and followed by the delimiter"). -/
def concatStrings (a b : Bytes) : Bytes := a ++ b

/-- `concatInterfaces(delimiter, msg...)`. -/
def concatInterfaces (delimiter : Bytes) (msg : List Value) : Bytes :=
  msg.foldl (fun result v => concatStrings (concatStrings result (sprintV v)) delimiter) []

/-- The loop of `colorConcatInterfaces` from index `i` on, with the running `lenCS`
and `s`; `none` is the index-out-of-range panic of `cs[i]`. -/
def colorConcatLoop (cs : List Bytes) (delimiter : Bytes) :
    List Value → (i : Nat) → (lenCS : Int) → (s : Bytes) → Option Bytes
  | [], _, _, s => some s
  | v :: rest, i, lenCS, s =>
    if lenCS > 0 then
      match cs.get? i with
      | none => none
      | some c =>
        colorConcatLoop cs delimiter rest (i + 1) (lenCS - 1)
          (concatStrings (concatStrings (concatStrings s c) (sprintV v)) delimiter)
    else
      colorConcatLoop cs delimiter rest (i + 1) lenCS
        (concatStrings (concatStrings s (sprintV v)) delimiter)

/-- `colorConcatInterfaces(cs, reset, delimiter, msg...)`. -/
def colorConcatInterfaces (cs : List Bytes) (reset delimiter : Bytes) (msg : List Value) :
    Option Bytes :=
  (colorConcatLoop cs delimiter msg 0 (cs.length : Int) []).map (fun s => concatStrings s reset)

/-! ## Levels, colour flags, destination flags (lines 97-134) -/

abbrev LogLvl := Int

def INFO : LogLvl := 0
def DEBUG : LogLvl := 1
def WARNING : LogLvl := 2
def ERROR : LogLvl := 3
def FATAL : LogLvl := 4
def TEST : LogLvl := 5
def PRINT : LogLvl := 6
def P : LogLvl := 7
def OTHER : LogLvl := 8
def DB : LogLvl := 9
def REDIS : LogLvl := 10
def MEMCHD : LogLvl := 11
def DB_OK : LogLvl := 12
def DB_FAIL : LogLvl := 13
def REDIS_OK : LogLvl := 14
def REDIS_FAIL : LogLvl := 15
def MEMCHD_OK : LogLvl := 16
def MEMCHD_FAIL : LogLvl := 17

/-- The eighteen constants of the `LogLvl` enumeration. -/
def allLevels : List LogLvl :=
  [INFO, DEBUG, WARNING, ERROR, FATAL, TEST, PRINT, P, OTHER, DB, REDIS, MEMCHD, DB_OK, DB_FAIL,
    REDIS_OK, REDIS_FAIL, MEMCHD_OK, MEMCHD_FAIL]

abbrev ColorFlag := Int

def NoColor : ColorFlag := 0
def Color : ColorFlag := 1

abbrev DestinationFlag := Int

def OFF_ALL : DestinationFlag := 0
def ON_NO_COLOR : DestinationFlag := 1
def ON_COLOR : DestinationFlag := 2
def ON_ALL : DestinationFlag := 3

/-! ## Sinks and the destination table (lines 136-156) -/

/-- An `io.Writer` value: the nil interface, the canonical discard sink
`ioutil.Discard`, or some other sink, told apart by an identifier. -/
inductive Writer
  | nil
  | Discard
  | sink (id : Nat)
deriving DecidableEq, Repr

/-- What the sinks have received: each write to a sink other than `ioutil.Discard`,
in order. -/
abbrev Output := List (Nat × Bytes)

/-- Go `io.WriteString(w, s)`; `none` is the panic of a method call on the nil
interface. A write to `ioutil.Discard` leaves no trace. -/
def ioWriteString (w : Writer) (s : Bytes) (out : Output) : Option Output :=
  match w with
  | .nil => none
  | .Discard => some out
  | .sink k => some (out ++ [(k, s)])

/-- A Go slice value that a caller hands to the logger: the backing array, by its
address, the offset of the first element in it, and the length. -/
structure Slice where
  arr : Nat
  off : Nat
  len : Nat
deriving DecidableEq, Repr

/-- The arrays of sinks that belong to the callers, by address. -/
abbrev Memory := Nat → List Writer

/-- The elements a slice shows. -/
def Memory.read (m : Memory) (s : Slice) : List Writer := ((m s.arr).drop s.off).take s.len

/-- Go `s[i] = w` for an index in range: the element of the backing array is
overwritten, for every slice that shows it. -/
def Memory.write (m : Memory) (s : Slice) (i : Nat) (w : Writer) : Memory :=
  fun a => if a = s.arr then (m a).set (s.off + i) w else m a

/-- A value of `Destinations[lvl]`. `own ws` is a slice that the logger has made
itself (the composite literals of lines 262-271, `make` in line 286): no one else
refers to its array, and it is kept by its elements. `caller s` is a slice that came in
through `SetDestinationLvl` (line 277): the map holds the slice itself, which still
refers to the caller's array. -/
inductive DestSlice
  | own (ws : List Writer)
  | caller (s : Slice)
deriving DecidableEq, Repr

/-- Go `map[LogLvl][]io.Writer`, read by lookup: an absent key gives the nil slice. -/
abbrev Destinations := LogLvl → DestSlice

/-- The package variable `defaultDestinations` (lines 139-156), key by key. -/
def defaultDestinations : List (LogLvl × List Writer) :=
  [(INFO, [.Discard, .Discard]), (DEBUG, [.Discard, .Discard]), (WARNING, [.Discard, .Discard]),
    (ERROR, [.Discard, .Discard]), (FATAL, [.Discard, .Discard]), (TEST, [.Discard, .Discard]),
    (PRINT, [.Discard, .Discard]), (P, [.Discard, .Discard]), (OTHER, [.Discard, .Discard]),
    (DB, [.Discard, .Discard]), (REDIS, [.Discard, .Discard]), (MEMCHD, [.Discard, .Discard]),
    (DB_OK, [.Discard, .Discard]), (DB_FAIL, [.Discard, .Discard]),
    (REDIS_OK, [.Discard, .Discard]), (REDIS_FAIL, [.Discard, .Discard])]

/-! ## Colour schemes (package `colormap`) and the handler table (lines 158-201) -/

/-- Modelled from the spec: package `colormap` is not under src/. `CSN` is the name of
a colour scheme; the constructors are the constants that `gologger.go` mentions, and
`zero` stands for the zero value of the type, which a lookup in
`LoggerColorSchemeDetached` gives for a level that is not one of its keys. -/
inductive CSN
  | zero
  | CS_INFO | CS_DEBUG | CS_WARNING | CS_ERROR | CS_FATAL_ERROR | CS_TEST | CS_PRINT
  | CS_DB | CS_REDIS | CS_MEMCHD | CS_DB_OK | CS_DB_FAIL | CS_REDIS_OK | CS_REDIS_FAIL
  | CS_MEMCHD_OK | CS_MEMCHD_FAIL | CS_RESET
deriving DecidableEq, Repr

/-- Modelled from the spec: `colormap.ColorSheme`, "an ordered list of color-prefix
strings". -/
abbrev ColorSheme := List Bytes

/-- Modelled from the spec: `colormap.CSM`, the table from scheme names to schemes,
read by lookup: an absent key gives the nil slice. -/
abbrev CSM := CSN → ColorSheme

/-- The package variable `LoggerColorSchemeDetached` (lines 159-178), read by lookup. -/
def LoggerColorSchemeDetached (lvl : LogLvl) : CSN :=
  if lvl = INFO then .CS_INFO else if lvl = DEBUG then .CS_DEBUG
  else if lvl = WARNING then .CS_WARNING else if lvl = ERROR then .CS_ERROR
  else if lvl = FATAL then .CS_FATAL_ERROR else if lvl = TEST then .CS_TEST
  else if lvl = PRINT then .CS_PRINT else if lvl = P then .CS_PRINT
  else if lvl = OTHER then .CS_PRINT else if lvl = DB then .CS_DB
  else if lvl = REDIS then .CS_REDIS else if lvl = MEMCHD then .CS_MEMCHD
  else if lvl = DB_OK then .CS_DB_OK else if lvl = DB_FAIL then .CS_DB_FAIL
  else if lvl = REDIS_OK then .CS_REDIS_OK else if lvl = REDIS_FAIL then .CS_REDIS_FAIL
  else if lvl = MEMCHD_OK then .CS_MEMCHD_OK else if lvl = MEMCHD_FAIL then .CS_MEMCHD_FAIL
  else .zero

/-- A `LogHandler` value. The closures of the three generator functions are told
apart by the generator and by what they capture; `nil` is the zero value of the
function type, as `make([]LogHandler, 2)` holds it. -/
inductive LogHandler
  | nil
  | discard
  | logFunc (lvl : LogLvl)
  | colorLogFunc (lvl : LogLvl) (csn : CSN)
deriving DecidableEq, Repr

/-- `genDiscardFunc()` (lines 204-208). -/
def genDiscardFunc : LogHandler := .discard

/-- `genLogFunc(lvl)` (lines 211-215). -/
def genLogFunc (lvl : LogLvl) : LogHandler := .logFunc lvl

/-- `genColorLogFunc(lvl, csn)` (lines 218-223). -/
def genColorLogFunc (lvl : LogLvl) (csn : CSN) : LogHandler := .colorLogFunc lvl csn

/-- Go `map[LogLvl][]LogHandler`, read by lookup: an absent key gives the nil slice. -/
abbrev LogMap := LogLvl → List LogHandler

/-- The struct `logMsg` (lines 197-201). -/
structure LogMsg where
  lvl : LogLvl
  cf : ColorFlag
  text : Bytes
deriving DecidableEq, Repr

/-! ## The message channel -/

/-- A buffered Go channel of `logMsg`: the queued messages, oldest first, the capacity
fixed by `make`, and whether `close` has been called. -/
structure Chan where
  buf : List LogMsg
  cap : Nat
  closed : Bool
deriving DecidableEq, Repr

/-- How a call fails to return: a run-time panic, or a goroutine that waits on the
channel with nothing in this sequential run to wake it. -/
inductive Fault
  | panic
  | blocked
deriving DecidableEq, Repr

/-- Go `ch <- m`: a panic on a closed channel, a wait on a full one. -/
def Chan.send (ch : Chan) (m : LogMsg) : Except Fault Chan :=
  if ch.closed then .error .panic
  else if ch.buf.length < ch.cap then .ok { ch with buf := ch.buf ++ [m] }
  else .error .blocked

/-- Go `close(ch)`: a panic on a channel that is already closed. -/
def Chan.close (ch : Chan) : Except Fault Chan :=
  if ch.closed then .error .panic else .ok { ch with closed := true }

/-! ## The logger (lines 184-194) -/

/-- The struct `logger`. `pGen` is the counter `i` that the closure of line 66
captures; `destTable` is the embedded map `Destinations`. `callerMem` is not a field
of the struct: it is the memory of the callers that the slices of `destTable` can
refer to, carried along because the methods read and write it. -/
structure Logger where
  msgChan : Chan
  settingsFlags : Int
  delimiter : Bytes
  callDepth : Int
  width : Nat
  pGen : Int
  destTable : Destinations
  LogMap : LogMap
  colorMap : CSM
  callerMem : Memory

/-- The slice `l.Destinations[lvl]`, by the elements it shows. -/
def Logger.Destinations (l : Logger) (lvl : LogLvl) : List Writer :=
  match l.destTable lvl with
  | .own ws => ws
  | .caller s => l.callerMem.read s

/-- Go `m[k] = v` on a map. -/
def mapSet {β : Type} (m : LogLvl → β) (k : LogLvl) (v : β) : LogLvl → β :=
  fun x => if x = k then v else m x

/-- What a logging call reads from its surroundings: the clock and the call stack. -/
structure Env where
  now : Time
  caller : Int → Option (Bytes × Int)

/-- `getRuntimeInfo(callDepth)` (lines 446-454). -/
def getRuntimeInfo (env : Env) (callDepth : Int) : Bytes × Int :=
  match env.caller callDepth with
  | some (file, line) => (file, line)
  | none => (lit "???", 0)

/-- `getSystemInfo(settingsFlags, callDepth)` (lines 435-444). -/
def getSystemInfo (env : Env) (settingsFlags : Int) (callDepth : Int) : Option Bytes :=
  let fl : Bytes × Int :=
    if and64 settingsFlags LNoStackTrace = 0 then getRuntimeInfo env callDepth else ([], 0)
  formatHeader settingsFlags [] env.now fl.1 fl.2

namespace Logger

/-- Lines 410-412 of the method `log`, once the header is there: the message and the
newline are joined to the header and the line is sent on the channel. The header is
`none` when `formatHeader` has panicked. -/
def sendLine (l : Logger) (header : Option Bytes) (lvl : LogLvl) (cf : ColorFlag) (msg : Bytes) :
    Except Fault Logger :=
  match header with
  | none => .error .panic
  | some s =>
    let s := concatStrings s msg
    let s := concatStrings s [10]
    match l.msgChan.send ⟨lvl, cf, s⟩ with
    | .error e => .error e
    | .ok ch => .ok { l with msgChan := ch }

/-- The method `log` (lines 408-413): header, message, newline, then the send. -/
def log (env : Env) (l : Logger) (lvl : LogLvl) (cf : ColorFlag) (msg : Bytes) :
    Except Fault Logger :=
  l.sendLine (getSystemInfo env l.settingsFlags (wrap64 (l.callDepth + 5))) lvl cf msg

/-- The call `h(l, msg...)` of a handler: the bodies of the closures of lines 205-207,
212-214 and 219-222; calling the nil function panics. -/
def callHandler (env : Env) (h : LogHandler) (l : Logger) (msg : List Value) :
    Except Fault Logger :=
  match h with
  | .nil => .error .panic
  | .discard => .ok l
  | .logFunc lvl => l.log env lvl NoColor (concatInterfaces l.delimiter msg)
  | .colorLogFunc lvl csn =>
    match sliceGet (l.colorMap .CS_RESET) 0 with
    | none => .error .panic
    | some reset =>
      match colorConcatInterfaces (l.colorMap csn) reset l.delimiter msg with
      | none => .error .panic
      | some s => l.log env lvl Color s

/-- The store `l.LogMap[lvl][color] = h`. -/
def setHandler (l : Logger) (lvl : LogLvl) (color : ColorFlag) (h : LogHandler) :
    Except Fault Logger :=
  match sliceSet (l.LogMap lvl) color h with
  | none => .error .panic
  | some hs => .ok { l with LogMap := mapSet l.LogMap lvl hs }

/-- The body of the loop of `SetDefaultDestinations` for one key (lines 259-272). -/
def setDefaultLvl (defaultWriter : Writer) (flag : DestinationFlag) (l : Logger) (lvl : LogLvl) :
    Logger :=
  if flag = OFF_ALL then
    { l with destTable := mapSet l.destTable lvl (.own [.Discard, .Discard]),
             LogMap := mapSet l.LogMap lvl [genDiscardFunc, genDiscardFunc] }
  else if flag = ON_NO_COLOR then
    { l with destTable := mapSet l.destTable lvl (.own [defaultWriter, .Discard]),
             LogMap := mapSet l.LogMap lvl [genLogFunc lvl, genDiscardFunc] }
  else if flag = ON_COLOR then
    { l with destTable := mapSet l.destTable lvl (.own [.Discard, defaultWriter]),
             LogMap := mapSet l.LogMap lvl
               [genDiscardFunc, genColorLogFunc lvl (LoggerColorSchemeDetached lvl)] }
  else if flag = ON_ALL then
    { l with destTable := mapSet l.destTable lvl (.own [defaultWriter, defaultWriter]),
             LogMap := mapSet l.LogMap lvl
               [genLogFunc lvl, genColorLogFunc lvl (LoggerColorSchemeDetached lvl)] }
  else l

/-- `SetDefaultDestinations(defaultWriter, flag)` (lines 257-274): the loop runs over
the keys of `defaultDestinations`. -/
def SetDefaultDestinations (l : Logger) (defaultWriter : Writer) (flag : DestinationFlag) :
    Logger :=
  (defaultDestinations.map Prod.fst).foldl (setDefaultLvl defaultWriter flag) l

/-- `SetColorScheme(cs)` (lines 236-242): the logger gets a copy of the table. -/
def SetColorScheme (l : Logger) (cs : CSM) : Logger := { l with colorMap := cs }

/-- `SetColorThemeName(name)` (lines 244-246); `colormap.CSMthemePicker` is not under
src/ and is taken as the parameter `picker`. -/
def SetColorThemeName (picker : Bytes → CSM) (l : Logger) (name : Bytes) : Logger :=
  l.SetColorScheme (picker name)

/-- `SetDestinationLvl(lvl, sWriters)` (lines 276-278): the map entry becomes the
caller's slice itself, not a copy of its elements. -/
def SetDestinationLvl (l : Logger) (lvl : LogLvl) (sWriters : Slice) : Logger :=
  { l with destTable := mapSet l.destTable lvl (.caller sWriters) }

/-- `SetDestinationLvlColor(lvl, color, writer)` (lines 280-282): the element is
written in place, so that a write through a caller's slice lands in the caller's
array; an index out of range panics. -/
def SetDestinationLvlColor (l : Logger) (lvl : LogLvl) (color : ColorFlag) (writer : Writer) :
    Except Fault Logger :=
  match l.destTable lvl with
  | .own ws =>
    match sliceSet ws color writer with
    | none => .error .panic
    | some ws1 => .ok { l with destTable := mapSet l.destTable lvl (.own ws1) }
  | .caller s =>
    if 0 ≤ color ∧ color.toNat < (l.callerMem.read s).length then
      .ok { l with callerMem := l.callerMem.write s color.toNat writer }
    else .error .panic

/-- `DisableDestinationLvl(lvl)` (lines 294-297). -/
def DisableDestinationLvl (l : Logger) (lvl : LogLvl) : Except Fault Logger := do
  let l ← l.setHandler lvl Color genDiscardFunc
  l.setHandler lvl NoColor genDiscardFunc

/-- `DisableDestinationLvlColor(lvl, color)` (lines 299-301). -/
def DisableDestinationLvlColor (l : Logger) (lvl : LogLvl) (color : ColorFlag) :
    Except Fault Logger :=
  l.setHandler lvl color genDiscardFunc

/-- `EnableDestinationLvl(lvl)` (lines 303-306). -/
def EnableDestinationLvl (l : Logger) (lvl : LogLvl) : Except Fault Logger := do
  let l ← l.setHandler lvl Color (genLogFunc lvl)
  l.setHandler lvl NoColor (genColorLogFunc lvl (LoggerColorSchemeDetached lvl))

/-- `EnableDestinationLvlColor(lvl, color)` (lines 308-315): a `switch` with no
default, so another colour flag stores nothing. -/
def EnableDestinationLvlColor (l : Logger) (lvl : LogLvl) (color : ColorFlag) :
    Except Fault Logger :=
  if color = NoColor then l.setHandler lvl color (genLogFunc lvl)
  else if color = Color then
    l.setHandler lvl color (genColorLogFunc lvl (LoggerColorSchemeDetached lvl))
  else .ok l

/-- `SetAndEnableDestinationLvl(lvl, d)` (lines 317-320). -/
def SetAndEnableDestinationLvl (l : Logger) (lvl : LogLvl) (d : Slice) :
    Except Fault Logger :=
  (l.SetDestinationLvl lvl d).EnableDestinationLvl lvl

/-- `SetAndEnableDestinationLvlColor(lvl, color, d)` (lines 322-329). -/
def SetAndEnableDestinationLvlColor (l : Logger) (lvl : LogLvl) (color : ColorFlag)
    (d : Writer) : Except Fault Logger := do
  let l ← l.SetDestinationLvlColor lvl color d
  if d = Writer.Discard then l.DisableDestinationLvlColor lvl color
  else l.EnableDestinationLvlColor lvl color

/-- The inner loop of `SetNewDestinations` (lines 288-290) from index `color` on. -/
def setNewLvl (lvl : LogLvl) : List Writer → (color : Nat) → Logger → Except Fault Logger
  | [], _, l => .ok l
  | writer :: rest, color, l => do
    let l ← l.SetAndEnableDestinationLvlColor lvl (color : Int) writer
    setNewLvl lvl rest (color + 1) l

/-- `SetNewDestinations(destinations)` (lines 284-292); the argument map is only read,
and is given by its entries, one per key, each slice by its elements. -/
def SetNewDestinations : Logger → List (LogLvl × List Writer) → Except Fault Logger
  | l, [] => .ok l
  | l, (lvl, ws) :: rest => do
    let l1 : Logger :=
      { l with destTable := mapSet l.destTable lvl (.own [.nil, .nil]),
               LogMap := mapSet l.LogMap lvl [.nil, .nil] }
    let l2 ← setNewLvl lvl ws 0 l1
    SetNewDestinations l2 rest

end Logger

namespace Logger

/-- The call `l.LogMap[lvl][cf](l, msg...)`; a missing entry is the index-out-of-range
panic. -/
def dispatch (env : Env) (l : Logger) (lvl : LogLvl) (cf : ColorFlag) (msg : List Value) :
    Except Fault Logger :=
  match sliceGet (l.LogMap lvl) cf with
  | none => .error .panic
  | some h => callHandler env h l msg

/-- `Log(lvl, msg...)` (lines 331-334). Each of the two handler calls reads the clock
and the stack for itself: `e0` is what the first reads, `e1` what the second reads. -/
def Log (e0 e1 : Env) (l : Logger) (lvl : LogLvl) (msg : List Value) : Except Fault Logger := do
  let l ← l.dispatch e0 lvl NoColor msg
  l.dispatch e1 lvl Color msg

/-- `LogC(lvl, cf, msg...)` (lines 336-338). -/
def LogC (env : Env) (l : Logger) (lvl : LogLvl) (cf : ColorFlag) (msg : List Value) :
    Except Fault Logger :=
  l.dispatch env lvl cf msg

/-- `Info(msg...)` (lines 340-343). -/
def Info (e0 e1 : Env) (l : Logger) (msg : List Value) : Except Fault Logger := do
  let l ← l.dispatch e0 INFO NoColor msg
  l.dispatch e1 INFO Color msg

/-- `Debug(msg...)` (lines 345-348). -/
def Debug (e0 e1 : Env) (l : Logger) (msg : List Value) : Except Fault Logger := do
  let l ← l.dispatch e0 DEBUG NoColor msg
  l.dispatch e1 DEBUG Color msg

/-- `Warning(msg...)` (lines 350-353). -/
def Warning (e0 e1 : Env) (l : Logger) (msg : List Value) : Except Fault Logger := do
  let l ← l.dispatch e0 WARNING NoColor msg
  l.dispatch e1 WARNING Color msg

/-- `Error(msg...)` (lines 355-358). -/
def Error (e0 e1 : Env) (l : Logger) (msg : List Value) : Except Fault Logger := do
  let l ← l.dispatch e0 ERROR NoColor msg
  l.dispatch e1 ERROR Color msg

/-- `Fatal(msg...)` (lines 360-363). -/
def Fatal (e0 e1 : Env) (l : Logger) (msg : List Value) : Except Fault Logger := do
  let l ← l.dispatch e0 FATAL NoColor msg
  l.dispatch e1 FATAL Color msg

/-- `Test(msg...)` (lines 365-368). -/
def Test (e0 e1 : Env) (l : Logger) (msg : List Value) : Except Fault Logger := do
  let l ← l.dispatch e0 TEST NoColor msg
  l.dispatch e1 TEST Color msg

/-- `Print(msg...)` (lines 370-373). -/
def Print (e0 e1 : Env) (l : Logger) (msg : List Value) : Except Fault Logger := do
  let l ← l.dispatch e0 PRINT NoColor msg
  l.dispatch e1 PRINT Color msg

/-- `Other(msg...)` (lines 380-383). -/
def Other (e0 e1 : Env) (l : Logger) (msg : List Value) : Except Fault Logger := do
  let l ← l.dispatch e0 OTHER NoColor msg
  l.dispatch e1 OTHER Color msg

/-- The call `l.pGen()` of the closure of line 66: `i++; return i`. -/
def nextP (l : Logger) : Logger × Int :=
  let i := wrap64 (l.pGen + 1)
  ({ l with pGen := i }, i)

/-- One statement of `P()` (line 376 or 377): the handler of `(INFO, cf)` is looked up,
`l.pGen()` is called for the argument, and the handler is called with the string form
of the integer. -/
def pStep (env : Env) (l : Logger) (cf : ColorFlag) : Except Fault Logger :=
  match sliceGet (l.LogMap INFO) cf with
  | none => .error .panic
  | some h => callHandler env h l.nextP.1 [.str (sprintV (.int l.nextP.2))]

/-- `P()` (lines 375-378): each of the two statements calls `l.pGen()` for its own
argument. -/
def P (e0 e1 : Env) (l : Logger) : Except Fault Logger := do
  let l ← l.pStep e0 NoColor
  l.pStep e1 Color

/-- One pass of the loop of `writeChanGoroutine` (lines 226-234) on the logger and
the sinks. `.ok none`: the channel is closed and empty and the loop breaks;
`.error .blocked`: the receive waits on an open empty channel; `.error .panic`: the
sink looked up at `l.Destinations[msg.LogLvl][msg.ColorFlag]` is missing or nil. -/
def writeChanStep (l : Logger) (out : Output) : Except Fault (Option (Logger × Output)) :=
  match l.msgChan.buf with
  | [] => if l.msgChan.closed then .ok none else .error .blocked
  | msg :: rest =>
    match sliceGet (l.Destinations msg.lvl) msg.cf with
    | none => .error .panic
    | some w =>
      match ioWriteString w msg.text out with
      | none => .error .panic
      | some out1 => .ok (some ({ l with msgChan := { l.msgChan with buf := rest } }, out1))

/-- `writeChanGoroutine` run for at most `fuel` passes with no other goroutine
touching the logger: the sinks when the loop breaks. -/
def writeChanGoroutine : (fuel : Nat) → Logger → Output → Except Fault Output
  | 0, _, _ => .error .blocked
  | fuel + 1, l, out =>
    match writeChanStep l out with
    | .error e => .error e
    | .ok none => .ok out
    | .ok (some (l1, out1)) => writeChanGoroutine fuel l1 out1

/-- The statement `close(l.msgChan)`. -/
def closeChan (l : Logger) : Except Fault Logger :=
  match l.msgChan.close with
  | .error e => .error e
  | .ok ch => .ok { l with msgChan := ch }

/-- `Close()` (lines 415-433), called once, as it acts on the queue. What the call
cannot decide by itself is given: `timerFired`, whether the one second timer is ready
when the `select` runs; `consumed`, the number of messages the consumer goroutine takes
off the queue between the two readings of `len(l.msgChan)`; and `slept`, the number it
takes off during the `time.Sleep` of line 430. -/
def Close (l : Logger) (timerFired : Bool) (consumed slept : Nat) : Except Fault Logger :=
  if l.msgChan.buf.length = 0 then l.closeChan
  else
    let l1 : Logger := { l with msgChan := { l.msgChan with buf := l.msgChan.buf.drop consumed } }
    if timerFired then l1.closeChan
    else if l1.msgChan.buf.length = 0 then l1.closeChan
    else .ok { l1 with msgChan := { l1.msgChan with buf := l1.msgChan.buf.drop slept } }

end Logger

/-- `NewLogger(defaultOutput, destFlag, n, callDepth, settingFlags, delimiter, csm)`
(lines 57-76), up to the start of the consumer goroutine. `make(chan logMsg, n)`
(line 61) panics for a negative `n` and for an `n` that is more than the run time
grants a channel ("makechan: size out of range"); that bound depends on the platform
and is given as `chanLimit`. The new logger refers to no array of a caller. -/
def NewLogger (chanLimit : Nat) (defaultOutput : Writer) (destFlag : DestinationFlag)
    (n callDepth settingFlags : Int) (delimiter : Bytes) (csm : CSM) : Except Fault Logger :=
  if n < 0 ∨ (chanLimit : Int) < n then .error .panic
  else
    let l : Logger :=
      { msgChan := { buf := [], cap := n.toNat, closed := false },
        settingsFlags := settingFlags,
        delimiter := delimiter,
        callDepth := callDepth,
        width := 0,
        pGen := 0,
        destTable := fun _ => .own [],
        LogMap := fun _ => [],
        colorMap := csm,
        callerMem := fun _ => [] }
    .ok (l.SetDefaultDestinations defaultOutput destFlag)

/-! ## Reference notions used in the statements -/

/-- The decimal digits of `n`, left-padded with the byte `0` to `w` characters. -/
def zeroPad (w n : Nat) : Bytes := List.leftpad w 48 (decimal n)

/-- The flag is set in the bit mask: Go `flags&flag != 0`. -/
def flagSet (flags flag : Int) : Prop := and64 flags flag ≠ 0

instance (flags flag : Int) : Decidable (flagSet flags flag) :=
  inferInstanceAs (Decidable (and64 flags flag ≠ 0))

/-- The date as `YYYY/MM/DD`. -/
def dateText (c : Civil) : Bytes :=
  zeroPad 4 c.year.toNat ++ lit "/" ++ zeroPad 2 c.month.toNat ++ lit "/" ++ zeroPad 2 c.day.toNat

/-- The time as `HH:MM:SS`, with `.` and six digits of microseconds when `micro`. -/
def timeText (c : Civil) (micro : Bool) : Bytes :=
  zeroPad 2 c.hour.toNat ++ lit ":" ++ zeroPad 2 c.minute.toNat ++ lit ":" ++
    zeroPad 2 c.second.toNat ++
    (if micro then lit "." ++ zeroPad 6 (c.nanosecond.toNat / 1000) else [])

/-- The header as the specification composes it: date, time, file and line, each
present under its flags, in this order, and nothing else. The instant is read in
UTC when `LUTC` is set; the file name is the one `formatHeader` prints (shortened
under `Lshortfile`). -/
def headerSpec (flags : Int) (t : Time) (file : Bytes) (line : Int) : Bytes :=
  let c := if flagSet flags LUTC then t.utc else t.loc
  (if flagSet flags Ldate then dateText c ++ lit " " else []) ++
  (if flagSet flags Ltime ∨ flagSet flags Lmicroseconds then
      timeText c (decide (flagSet flags Lmicroseconds)) ++ lit " " else []) ++
  (if (flagSet flags Lshortfile ∨ flagSet flags Llongfile) ∧ ¬ flagSet flags LNoStackTrace then
      (if flagSet flags Lshortfile then shortFile file else file) ++ lit ":" ++
        decimal line.toNat ++ lit ": "
    else [])

/-- The text the specification asks of the coloured concatenation, from the value
at index `i` on: for each value the prefix `cs[i]` if `i < len(cs)` (nothing
otherwise), the value's default string form, the delimiter. -/
def colorPieces (cs : List Bytes) (delimiter : Bytes) : Nat → List Value → Bytes
  | _, [] => []
  | i, v :: rest => cs.getD i [] ++ sprintV v ++ delimiter ++ colorPieces cs delimiter (i + 1) rest

/-- The coloured concatenation as the specification words it: the pieces of all
values in order, then the reset sequence once. -/
def colorConcatSpec (cs : List Bytes) (reset delimiter : Bytes) (msg : List Value) : Bytes :=
  colorPieces cs delimiter 0 msg ++ reset

/-- The level has its two handler entries and its two sinks. -/
def hasTwo (l : Logger) (lvl : LogLvl) : Prop :=
  (l.LogMap lvl).length = 2 ∧ (l.Destinations lvl).length = 2

instance (l : Logger) (lvl : LogLvl) : Decidable (hasTwo l lvl) :=
  inferInstanceAs (Decidable ((l.LogMap lvl).length = 2 ∧ (l.Destinations lvl).length = 2))

/-- The four destination flags of lines 129-134. -/
def fourFlags (flag : DestinationFlag) : Prop :=
  flag = OFF_ALL ∨ flag = ON_NO_COLOR ∨ flag = ON_COLOR ∨ flag = ON_ALL

instance (flag : DestinationFlag) : Decidable (fourFlags flag) :=
  inferInstanceAs (Decidable (flag = OFF_ALL ∨ flag = ON_NO_COLOR ∨ flag = ON_COLOR ∨ flag = ON_ALL))

/-- The levels of the routing table that `SetDefaultDestinations` fills: the keys of
`defaultDestinations`. -/
def tableLevels : List LogLvl := defaultDestinations.map Prod.fst

/-- The two sinks of a level after `SetDefaultDestinations(w, flag)`: `w` for a colour
mode the flag turns on, `ioutil.Discard` for one it leaves off. -/
def sinksFor (w : Writer) (flag : DestinationFlag) : List Writer :=
  [if flag = ON_NO_COLOR ∨ flag = ON_ALL then w else Writer.Discard,
   if flag = ON_COLOR ∨ flag = ON_ALL then w else Writer.Discard]

/-- The two handlers of a level after `SetDefaultDestinations(w, flag)`. -/
def handlersFor (lvl : LogLvl) (flag : DestinationFlag) : List LogHandler :=
  [if flag = ON_NO_COLOR ∨ flag = ON_ALL then genLogFunc lvl else genDiscardFunc,
   if flag = ON_COLOR ∨ flag = ON_ALL then genColorLogFunc lvl (LoggerColorSchemeDetached lvl)
   else genDiscardFunc]

/-- What every controller call keeps: a level that has its two handlers and two sinks
still has them, and the queue is untouched. -/
def Keeps (l l1 : Logger) : Prop :=
  (∀ lvl, hasTwo l lvl → hasTwo l1 lvl) ∧ l1.msgChan = l.msgChan

/-- The calls of the interface `LoggerController` (lines 36-54), with their arguments. -/
inductive ControllerOp
  | setColorScheme (cs : CSM)
  | setDefaultDestinations (w : Writer) (flag : DestinationFlag)
  | setNewDestinations (ds : List (LogLvl × List Writer))
  | setDestinationLvl (lvl : LogLvl) (s : Slice)
  | setDestinationLvlColor (lvl : LogLvl) (color : ColorFlag) (w : Writer)
  | disableDestinationLvl (lvl : LogLvl)
  | disableDestinationLvlColor (lvl : LogLvl) (color : ColorFlag)
  | enableDestinationLvl (lvl : LogLvl)
  | enableDestinationLvlColor (lvl : LogLvl) (color : ColorFlag)
  | setAndEnableDestinationLvl (lvl : LogLvl) (s : Slice)
  | setAndEnableDestinationLvlColor (lvl : LogLvl) (color : ColorFlag) (w : Writer)

/-- One controller call on the logger. -/
def Logger.control (l : Logger) : ControllerOp → Except Fault Logger
  | .setColorScheme cs => .ok (l.SetColorScheme cs)
  | .setDefaultDestinations w flag => .ok (l.SetDefaultDestinations w flag)
  | .setNewDestinations ds => l.SetNewDestinations ds
  | .setDestinationLvl lvl s => .ok (l.SetDestinationLvl lvl s)
  | .setDestinationLvlColor lvl color w => l.SetDestinationLvlColor lvl color w
  | .disableDestinationLvl lvl => l.DisableDestinationLvl lvl
  | .disableDestinationLvlColor lvl color => l.DisableDestinationLvlColor lvl color
  | .enableDestinationLvl lvl => l.EnableDestinationLvl lvl
  | .enableDestinationLvlColor lvl color => l.EnableDestinationLvlColor lvl color
  | .setAndEnableDestinationLvl lvl s => l.SetAndEnableDestinationLvl lvl s
  | .setAndEnableDestinationLvlColor lvl color w => l.SetAndEnableDestinationLvlColor lvl color w

/-- A sequence of controller calls, one after the other. -/
def Logger.controlAll : Logger → List ControllerOp → Except Fault Logger
  | l, [] => .ok l
  | l, op :: ops =>
    match l.control op with
    | .error e => .error e
    | .ok l1 => Logger.controlAll l1 ops

/-- The call hands over a slice of two sinks wherever it installs a whole slice. -/
def ControllerOp.twoSinks (l : Logger) : ControllerOp → Prop
  | .setDestinationLvl _ s => (l.callerMem.read s).length = 2
  | .setAndEnableDestinationLvl _ s => (l.callerMem.read s).length = 2
  | _ => True

/-- A step of the surroundings, not of the logger: a caller makes the array at the
address `a`, or overwrites it, with the sinks `ws`. -/
def Logger.callerArray (l : Logger) (a : Nat) (ws : List Writer) : Logger :=
  { l with callerMem := fun x => if x = a then ws else l.callerMem x }

/-- The place in memory of an element of a destination slice: an element of an array
of the logger's own, which only the entry of that level shows, or an element of a
caller's array. -/
inductive Cell
  | own (lvl : LogLvl) (i : Nat)
  | caller (arr : Nat) (i : Nat)
deriving DecidableEq, Repr

/-- The place in memory that `l.Destinations[lvl][i]` names. -/
def Logger.cell (l : Logger) (lvl : LogLvl) (i : Nat) : Cell :=
  match l.destTable lvl with
  | .own _ => .own lvl i
  | .caller s => .caller s.arr (s.off + i)

/-- The consumer run for exactly `n` passes of its loop, each of which takes a
message off the queue. -/
def Logger.drainN : Nat → Logger → Output → Except Fault (Logger × Output)
  | 0, l, out => .ok (l, out)
  | n + 1, l, out =>
    match l.writeChanStep out with
    | .error e => .error e
    | .ok none => .error .blocked
    | .ok (some (l1, out1)) => Logger.drainN n l1 out1

/-- A colour table for the examples: prefixes `RED`, `GREEN` for every scheme and the
reset sequence `RESET`. -/
def exampleCSM : CSM := fun c => if c = CSN.CS_RESET then [lit "RESET"] else [lit "RED", lit "GREEN"]

/-- The instant 2009-01-23 01:23:23.123123, the same in the local zone and in UTC. -/
def t2009 : Time :=
  let c : Civil := ⟨2009, 1, 23, 1, 23, 23, 123123000⟩
  ⟨c, c⟩

/-- Surroundings for the examples: the instant `t2009` and no stack information. -/
def exampleEnv : Env := { now := t2009, caller := fun _ => none }

/-- A bound on the capacity of a channel for the examples, which ask for ten places. -/
def exampleLimit : Nat := 1000000

/-- The logger that `NewLogger(w, flag, 10, 0, 0, " ", exampleCSM)` returns. -/
def exampleLogger (w : Writer) (flag : DestinationFlag) : Logger :=
  Logger.SetDefaultDestinations
    { msgChan := { buf := [], cap := 10, closed := false },
      settingsFlags := 0,
      delimiter := lit " ",
      callDepth := 0,
      width := 0,
      pGen := 0,
      destTable := fun _ => .own [],
      LogMap := fun _ => [],
      colorMap := exampleCSM,
      callerMem := fun _ => [] } w flag

/-- The text the specification asks of the plain concatenation: for each value in
order its default string form and the delimiter, nothing trimmed. -/
def plainPieces (delimiter : Bytes) : List Value → Bytes
  | [] => []
  | v :: rest => sprintV v ++ delimiter ++ plainPieces delimiter rest

/-- The final segment of a path: the part after its last `/`, the whole path when it
has no `/`. -/
def finalSegment (file : Bytes) : Bytes :=
  (file.reverse.takeWhile (fun b => decide (b ≠ 47))).reverse

/-- The logger with one more message at the end of its queue and nothing else
changed. -/
def Logger.enqueued (l : Logger) (m : LogMsg) : Logger :=
  { l with msgChan := { l.msgChan with buf := l.msgChan.buf ++ [m] } }

/-! # Theorems -/

/-! ## Decimal digits -/

theorem toDigitsCore_fuel (n : Nat) : ∀ (f : Nat) (ds : List Char), n < f →
    Nat.toDigitsCore 10 f n ds = Nat.toDigitsCore 10 (n + 1) n [] ++ ds := by
  induction n using Nat.strong_induction_on with
  | _ n ih =>
    intro f ds hf
    obtain ⟨f, rfl⟩ : ∃ g, f = g + 1 := ⟨f - 1, by omega⟩
    simp only [Nat.toDigitsCore]
    by_cases h0 : n / 10 = 0
    · simp [h0]
    · have hlt : n / 10 < n := by omega
      simp only [h0, if_false]
      rw [ih (n / 10) hlt f _ (by omega), ih (n / 10) hlt n _ hlt]
      simp

theorem toDigits_step (n : Nat) (h : 10 ≤ n) :
    Nat.toDigits 10 n = Nat.toDigits 10 (n / 10) ++ [Nat.digitChar (n % 10)] := by
  have h0 : n / 10 ≠ 0 := by omega
  have hlt : n / 10 < n := by omega
  rw [Nat.toDigits, Nat.toDigitsCore]
  simp only [h0, if_false]
  rw [toDigitsCore_fuel (n / 10) n _ hlt, Nat.toDigits]

theorem digitChar_toNat (d : Nat) (h : d < 10) : (Nat.digitChar d).toNat = 48 + d := by
  interval_cases d <;> rfl

theorem decimal_small (n : Nat) (h : n < 10) : decimal n = [48 + n] := by
  interval_cases n <;> rfl

theorem decimal_step (n : Nat) (h : 10 ≤ n) : decimal n = decimal (n / 10) ++ [48 + n % 10] := by
  unfold decimal
  rw [toDigits_step n h]
  simp [digitChar_toNat (n % 10) (Nat.mod_lt _ (by decide))]

theorem decimal_length_pos (n : Nat) : 1 ≤ (decimal n).length := by
  by_cases h : n < 10
  · rw [decimal_small n h]; simp
  · rw [decimal_step n (by omega)]; simp

theorem wrap64_id (x : Int) (h1 : -9223372036854775808 ≤ x) (h2 : x ≤ 9223372036854775807) :
    wrap64 x = x := by
  unfold wrap64; omega

theorem itoaLoop_nonneg : ∀ (s n : Nat) (wid : Int) (acc : Bytes),
    (decimal n).length ≤ s → wid ≤ s → -9223372036854775808 + (s : Int) ≤ wid → s ≤ 20 →
    itoaLoop s (n : Int) wid acc = some (List.leftpad wid.toNat 48 (decimal n) ++ acc) := by
  intro s
  induction s with
  | zero =>
    intro n wid acc h
    have := decimal_length_pos n
    omega
  | succ s ih =>
    intro n wid acc hlen hw hlo hs
    unfold itoaLoop
    have hq : Int.tdiv (n : Int) 10 = ((n / 10 : Nat) : Int) := by
      rw [Int.tdiv_eq_ediv (by omega) (by omega)]; simp
    by_cases hc : (n : Int) ≥ 10 ∨ wid > 1
    · simp only [hc, if_true]
      rw [wrap64_id (wid - 1) (by omega) (by omega), hq]
      have hb : toByte (48 + (n : Int) - ((n / 10 : Nat) : Int) * 10) = 48 + n % 10 := by
        unfold toByte; omega
      rw [hb]
      by_cases h10 : 10 ≤ n
      · have hd := decimal_step n h10
        rw [ih (n / 10) (wid - 1) _ (by rw [hd] at hlen; simp at hlen; omega) (by omega)
          (by omega) (by omega)]
        rw [hd]
        simp only [List.leftpad, List.length_append, List.length_singleton, List.append_assoc,
          List.singleton_append]
        congr 3
        omega
      · have hn : n < 10 := by omega
        have hwid : wid > 1 := by
          rcases hc with h | h
          · omega
          · exact h
        have hz : n / 10 = 0 := by omega
        rw [ih (n / 10) (wid - 1) _ (by rw [hz, decimal_small 0 (by decide)]; simp; omega)
          (by omega) (by omega) (by omega)]
        rw [hz, decimal_small 0 (by decide), decimal_small n hn]
        have hm : n % 10 = n := by omega
        rw [hm]
        obtain ⟨k, hk⟩ : ∃ k : Nat, wid = (k : Int) + 2 := ⟨(wid - 2).toNat, by omega⟩
        subst hk
        have e1 : ((k : Int) + 2 - 1).toNat = k + 1 := by omega
        have e2 : ((k : Int) + 2).toNat = k + 2 := by omega
        simp only [List.leftpad, e1, e2, List.length_singleton]
        simp [List.replicate_succ', List.append_assoc]
    · have hn : n < 10 := by omega
      have hwid : wid ≤ 1 := by omega
      simp only [hc, if_false]
      rw [decimal_small n hn]
      have : wid.toNat - 1 = 0 := by omega
      have hb : toByte (48 + (n : Int)) = 48 + n := by unfold toByte; omega
      simp [List.leftpad, this, hb]

theorem decimal_length_le (n e : Nat) (h : n < 10 ^ e) (he : 0 < e) :
    (decimal n).length ≤ e := by
  unfold decimal
  rw [List.length_map, Nat.toDigits]
  exact Nat.toDigitsCore_length 10 (by decide) (n + 1) n e h he

/-- Zero-padded fixed width: `itoa` with a width between 1 and 20 on a value that
fits the width. -/
theorem itoa_pad (buf : Bytes) (i : Int) (w : Nat) (h0 : 0 ≤ i) (hw1 : 1 ≤ w) (hw : w ≤ 20)
    (hi : i < 10 ^ w) : itoa buf i (w : Int) = some (buf ++ zeroPad w i.toNat) := by
  obtain ⟨n, rfl⟩ : ∃ n : Nat, i = (n : Int) := ⟨i.toNat, by omega⟩
  have hn : n < 10 ^ w := by exact_mod_cast hi
  have hlen := decimal_length_le n w hn (by omega)
  unfold itoa zeroPad
  rw [itoaLoop_nonneg 20 n (w : Int) [] (by omega) (by omega) (by omega) (by omega)]
  simp

/-- No padding: `itoa` with width -1 on a non-negative `int`. -/
theorem itoa_plain (buf : Bytes) (i : Int) (h0 : 0 ≤ i) (hi : i ≤ 9223372036854775807) :
    itoa buf i (-1) = some (buf ++ decimal i.toNat) := by
  obtain ⟨n, rfl⟩ : ∃ n : Nat, i = (n : Int) := ⟨i.toNat, by omega⟩
  have hn : n < 10 ^ 20 := by
    have : n ≤ 9223372036854775807 := by exact_mod_cast hi
    have h20 : (9223372036854775807 : Nat) < 10 ^ 20 := by norm_num
    omega
  have hlen := decimal_length_le n 20 hn (by omega)
  unfold itoa
  rw [itoaLoop_nonneg 20 n (-1) [] (by omega) (by omega) (by omega) (by omega)]
  simp [List.leftpad]

/-! ## Flag tests -/

theorem land_lor_eq_zero (u a b : Nat) : u &&& (a ||| b) = 0 ↔ u &&& a = 0 ∧ u &&& b = 0 := by
  rw [Nat.and_or_distrib_left]
  constructor
  · intro h
    constructor <;> apply Nat.eq_of_testBit_eq <;> intro i <;>
      have hi := congrArg (fun x => Nat.testBit x i) h <;>
      simp only [Nat.testBit_or, Nat.zero_testBit, Bool.or_eq_false_iff] at hi ⊢
    · exact hi.1
    · exact hi.2
  · rintro ⟨h1, h2⟩
    rw [h1, h2]
    rfl

theorem and64_eq_zero (f m : Int) (h0 : 0 ≤ m) (h1 : m ≤ 9223372036854775807) :
    and64 f m = 0 ↔ toU64 f &&& m.toNat = 0 := by
  have hm : toU64 m = m.toNat := by unfold toU64; rw [Int.emod_eq_of_lt h0 (by omega)]
  unfold and64
  rw [hm]
  have hle : toU64 f &&& m.toNat ≤ m.toNat := Nat.and_le_right
  rw [wrap64_id _ (by simp; omega) (by simp; omega)]
  simp

theorem flagSet_date_time_micro (f : Int) :
    and64 f (or64 Ldate (or64 Ltime Lmicroseconds)) ≠ 0 ↔
      flagSet f Ldate ∨ flagSet f Ltime ∨ flagSet f Lmicroseconds := by
  have e : or64 Ldate (or64 Ltime Lmicroseconds) = 7 := by decide
  unfold flagSet
  rw [e, Ne, Ne, Ne, Ne, and64_eq_zero f 7 (by decide) (by decide),
    and64_eq_zero f Ldate (by decide) (by decide), and64_eq_zero f Ltime (by decide) (by decide),
    and64_eq_zero f Lmicroseconds (by decide) (by decide)]
  have e7 : (7 : Int).toNat = 1 ||| (2 ||| 4) := by decide
  have e1 : Ldate.toNat = 1 := by decide
  have e2 : Ltime.toNat = 2 := by decide
  have e4 : Lmicroseconds.toNat = 4 := by decide
  rw [e7, e1, e2, e4, land_lor_eq_zero, land_lor_eq_zero]
  tauto

theorem flagSet_time_micro (f : Int) :
    and64 f (or64 Ltime Lmicroseconds) ≠ 0 ↔ flagSet f Ltime ∨ flagSet f Lmicroseconds := by
  have e : or64 Ltime Lmicroseconds = 6 := by decide
  unfold flagSet
  rw [e, Ne, Ne, Ne, and64_eq_zero f 6 (by decide) (by decide),
    and64_eq_zero f Ltime (by decide) (by decide),
    and64_eq_zero f Lmicroseconds (by decide) (by decide)]
  have e6 : (6 : Int).toNat = 2 ||| 4 := by decide
  have e2 : Ltime.toNat = 2 := by decide
  have e4 : Lmicroseconds.toNat = 4 := by decide
  rw [e6, e2, e4, land_lor_eq_zero]
  tauto

theorem flagSet_short_long (f : Int) :
    and64 f (or64 Lshortfile Llongfile) ≠ 0 ↔ flagSet f Lshortfile ∨ flagSet f Llongfile := by
  have e : or64 Lshortfile Llongfile = 24 := by decide
  unfold flagSet
  rw [e, Ne, Ne, Ne, and64_eq_zero f 24 (by decide) (by decide),
    and64_eq_zero f Lshortfile (by decide) (by decide),
    and64_eq_zero f Llongfile (by decide) (by decide)]
  have e24 : (24 : Int).toNat = 16 ||| 8 := by decide
  have e16 : Lshortfile.toNat = 16 := by decide
  have e8 : Llongfile.toNat = 8 := by decide
  rw [e24, e16, e8, land_lor_eq_zero]
  tauto

/-! ## The header -/

theorem lit_slash : lit "/" = [47] := rfl
theorem lit_colon : lit ":" = [58] := rfl
theorem lit_dot : lit "." = [46] := rfl
theorem lit_space : lit " " = [32] := rfl
theorem lit_colon_space : lit ": " = [58, 32] := rfl

theorem itoa_w2 (buf : Bytes) (i : Int) (h0 : 0 ≤ i) (h : i ≤ 99) :
    itoa buf i 2 = some (buf ++ zeroPad 2 i.toNat) := by
  have := itoa_pad buf i 2 h0 (by decide) (by decide) (by norm_num; omega)
  simpa using this

theorem itoa_w4 (buf : Bytes) (i : Int) (h0 : 0 ≤ i) (h : i ≤ 9999) :
    itoa buf i 4 = some (buf ++ zeroPad 4 i.toNat) := by
  have := itoa_pad buf i 4 h0 (by decide) (by decide) (by norm_num; omega)
  simpa using this

theorem itoa_w6 (buf : Bytes) (i : Int) (h0 : 0 ≤ i) (h : i ≤ 999999999) :
    itoa buf (Int.tdiv i 1000) 6 = some (buf ++ zeroPad 6 (i.toNat / 1000)) := by
  obtain ⟨n, rfl⟩ : ∃ n : Nat, i = (n : Int) := ⟨i.toNat, by omega⟩
  have hq : Int.tdiv (n : Int) 1000 = ((n / 1000 : Nat) : Int) := by
    rw [Int.tdiv_eq_ediv (by omega) (by omega)]; simp
  rw [hq]
  have := itoa_pad buf ((n / 1000 : Nat) : Int) 6 (by omega) (by decide) (by decide)
    (by norm_num; omega)
  simpa using this

set_option maxHeartbeats 4000000 in
/-- The code of `formatHeader` appends to `buf` the header that `headerSpec` describes. -/
theorem formatHeader_eq (flags : Int) (buf : Bytes) (t : Time) (file : Bytes) (line : Int)
    (hloc : t.loc.wf) (hutc : t.utc.wf) (hl0 : 0 ≤ line) (hl1 : line ≤ 9223372036854775807) :
    formatHeader flags buf t file line = some (buf ++ headerSpec flags t file line) := by
  obtain ⟨a1, a2, a3, a4, a5, a6, a7, a8, a9, a10, a11, a12, a13, a14⟩ := hloc
  obtain ⟨b1, b2, b3, b4, b5, b6, b7, b8, b9, b10, b11, b12, b13, b14⟩ := hutc
  have hN : flagSet flags LNoStackTrace ↔ ¬ and64 flags LNoStackTrace = 0 := Iff.rfl
  have hD : and64 flags Ldate ≠ 0 ↔ flagSet flags Ldate := Iff.rfl
  have hM : and64 flags Lmicroseconds ≠ 0 ↔ flagSet flags Lmicroseconds := Iff.rfl
  have hS : and64 flags Lshortfile ≠ 0 ↔ flagSet flags Lshortfile := Iff.rfl
  have hU : and64 flags LUTC ≠ 0 ↔ flagSet flags LUTC := Iff.rfl
  have l1 := fun b => itoa_w4 b t.loc.year a1 a2
  have l2 := fun b => itoa_w2 b t.loc.month (by omega) (by omega)
  have l3 := fun b => itoa_w2 b t.loc.day (by omega) (by omega)
  have l4 := fun b => itoa_w2 b t.loc.hour (by omega) (by omega)
  have l5 := fun b => itoa_w2 b t.loc.minute (by omega) (by omega)
  have l6 := fun b => itoa_w2 b t.loc.second (by omega) (by omega)
  have l7 := fun b => itoa_w6 b t.loc.nanosecond a13 a14
  have u1 := fun b => itoa_w4 b t.utc.year b1 b2
  have u2 := fun b => itoa_w2 b t.utc.month (by omega) (by omega)
  have u3 := fun b => itoa_w2 b t.utc.day (by omega) (by omega)
  have u4 := fun b => itoa_w2 b t.utc.hour (by omega) (by omega)
  have u5 := fun b => itoa_w2 b t.utc.minute (by omega) (by omega)
  have u6 := fun b => itoa_w2 b t.utc.second (by omega) (by omega)
  have u7 := fun b => itoa_w6 b t.utc.nanosecond b13 b14
  have ln := fun b => itoa_plain b line hl0 hl1
  unfold formatHeader headerSpec
  simp only [flagSet_date_time_micro, flagSet_time_micro, flagSet_short_long, hD, hM, hS, hU, hN]
  by_cases cU : flagSet flags LUTC <;> by_cases cD : flagSet flags Ldate <;>
    by_cases cT : flagSet flags Ltime <;> by_cases cM : flagSet flags Lmicroseconds <;>
    by_cases cS : flagSet flags Lshortfile <;> by_cases cL : flagSet flags Llongfile <;>
    by_cases cN : and64 flags LNoStackTrace = 0 <;>
    simp [cU, cD, cT, cM, cS, cL, cN, l1, l2, l3, l4, l5, l6, l7, u1, u2, u3, u4, u5, u6, u7, ln,
      Time.UTC, dateText, timeText, List.append_assoc, lit_slash, lit_colon, lit_dot, lit_space,
      lit_colon_space]

/-- C6: for every flag set and every instant (with a four digit year and the field
ranges of the `time` package) and every non-negative line number, `formatHeader`
appends exactly: the date `YYYY/MM/DD` and a space if `Ldate` is set, then the time
`HH:MM:SS` (with `.` and six digits of microseconds if `Lmicroseconds` is set) and a
space if `Ltime` or `Lmicroseconds` is set, then file `:` line `: ` if `Lshortfile` or
`Llongfile` is set and `LNoStackTrace` is not; nothing else. -/
theorem C6_formatHeader_fixed_order (flags : Int) (buf : Bytes) (t : Time) (file : Bytes)
    (line : Int) (hloc : t.loc.wf) (hutc : t.utc.wf) (hl0 : 0 ≤ line)
    (hl1 : line ≤ 9223372036854775807) :
    formatHeader flags buf t file line = some (buf ++ headerSpec flags t file line) :=
  formatHeader_eq flags buf t file line hloc hutc hl0 hl1

/-- C6, the two instances of the comment of lines 80-83: `Ldate | Ltime` at
2009-01-23 01:23:23, and `Ldate | Ltime | Lmicroseconds | Llongfile` with 123123
microseconds, file `/a/b/c/d.go`, line 23. -/
theorem C6_formatHeader_witness :
    (t2009.loc.wf ∧ t2009.utc.wf ∧ (0 : Int) ≤ 23 ∧ (23 : Int) ≤ 9223372036854775807) ∧
    formatHeader (or64 Ldate Ltime) [] t2009 (lit "/a/b/c/d.go") 23
      = some (lit "2009/01/23 01:23:23 ") ∧
    formatHeader (or64 Ldate (or64 Ltime (or64 Lmicroseconds Llongfile))) [] t2009
        (lit "/a/b/c/d.go") 23
      = some (lit "2009/01/23 01:23:23.123123 /a/b/c/d.go:23: ") :=
  ⟨by decide,
   (C6_formatHeader_fixed_order _ [] t2009 _ 23 (by decide) (by decide) (by decide)
      (by decide)).trans (by decide),
   (C6_formatHeader_fixed_order _ [] t2009 _ 23 (by decide) (by decide) (by decide)
      (by decide)).trans (by decide)⟩

/-! ## The coloured concatenation -/

theorem colorConcatLoop_eq (cs : List Bytes) (delimiter : Bytes) :
    ∀ (msg : List Value) (i : Nat) (s : Bytes),
      colorConcatLoop cs delimiter msg i ((cs.length - i : Nat) : Int) s
        = some (s ++ colorPieces cs delimiter i msg) := by
  intro msg
  induction msg with
  | nil => intro i s; simp [colorConcatLoop, colorPieces]
  | cons v rest ih =>
    intro i s
    unfold colorConcatLoop
    by_cases h : i < cs.length
    · have hpos : ((cs.length - i : Nat) : Int) > 0 := by omega
      have hget : cs.get? i = some (cs.getD i []) := by
        rw [List.getD_eq_getElem?_getD, List.get?_eq_getElem?, List.getElem?_eq_getElem h]
        simp
      have hsub : ((cs.length - i : Nat) : Int) - 1 = ((cs.length - (i + 1) : Nat) : Int) := by
        omega
      simp only [hpos, if_true, hget]
      rw [hsub, ih]
      simp [colorPieces, concatStrings, List.append_assoc]
    · have hz : ¬ ((cs.length - i : Nat) : Int) > 0 := by omega
      have hsub : ((cs.length - i : Nat) : Int) = ((cs.length - (i + 1) : Nat) : Int) := by
        omega
      simp only [hz, if_false]
      rw [hsub, ih]
      have hnone2 : cs[i]? = none := List.getElem?_eq_none (by omega)
      simp [colorPieces, concatStrings, List.append_assoc, hnone2]

/-- C5: for every prefix list, reset string, delimiter and value list,
`colorConcatInterfaces` returns, for each value at index `i` in order, the prefix
`cs[i]` if `i < len(cs)` (nothing otherwise), the value's default string form and the
delimiter, followed by the reset sequence exactly once; with prefixes `RED`, `GREEN`,
reset `RESET`, delimiter one space and values `a`, `b`, `c` the result is
`REDa GREENb c RESET`. -/
theorem C5_colorConcatInterfaces_spec (cs : List Bytes) (reset delimiter : Bytes)
    (msg : List Value) :
    colorConcatInterfaces cs reset delimiter msg
        = some (colorConcatSpec cs reset delimiter msg) ∧
      colorConcatInterfaces cs reset delimiter [] = some reset ∧
      colorConcatInterfaces [lit "RED", lit "GREEN"] (lit "RESET") (lit " ")
          [.str (lit "a"), .str (lit "b"), .str (lit "c")]
        = some (lit "REDa GREENb c RESET") := by
  refine ⟨?_, ?_, by decide⟩
  · unfold colorConcatInterfaces colorConcatSpec
    have h := colorConcatLoop_eq cs delimiter msg 0 []
    simp only [Nat.sub_zero, List.nil_append] at h
    rw [h]
    simp [concatStrings]
  · unfold colorConcatInterfaces
    simp [colorConcatLoop, concatStrings]

/-! ## Slices and the two tables -/

theorem sliceGet_natCast {α : Type} (xs : List α) (k : Nat) :
    sliceGet xs (k : Int) = xs.get? k := by
  simp [sliceGet]

theorem sliceGet_neg {α : Type} (xs : List α) (c : Int) (h : ¬ 0 ≤ c) : sliceGet xs c = none := by
  simp [sliceGet, h]

theorem sliceSet_two {α : Type} (xs : List α) (c : Int) (v : α) (h : xs.length = 2)
    (hc : c = 0 ∨ c = 1) : ∃ ys, sliceSet xs c v = some ys ∧ ys.length = 2 ∧
      sliceGet ys c = some v ∧ ∀ c2 : Int, c2 ≠ c → sliceGet ys c2 = sliceGet xs c2 := by
  match xs, h with
  | [a, b], _ =>
    rcases hc with rfl | rfl
    · refine ⟨[v, b], rfl, rfl, rfl, ?_⟩
      intro c2 hne
      by_cases h0 : 0 ≤ c2
      · obtain ⟨k, rfl⟩ : ∃ k : Nat, c2 = (k : Int) := ⟨c2.toNat, by omega⟩
        rw [sliceGet_natCast, sliceGet_natCast]
        match k with
        | 0 => exact absurd rfl hne
        | k + 1 => rfl
      · rw [sliceGet_neg _ _ h0, sliceGet_neg _ _ h0]
    · refine ⟨[a, v], rfl, rfl, rfl, ?_⟩
      intro c2 hne
      by_cases h0 : 0 ≤ c2
      · obtain ⟨k, rfl⟩ : ∃ k : Nat, c2 = (k : Int) := ⟨c2.toNat, by omega⟩
        rw [sliceGet_natCast, sliceGet_natCast]
        match k with
        | 0 => rfl
        | 1 => exact absurd rfl hne
        | k + 2 => rfl
      · rw [sliceGet_neg _ _ h0, sliceGet_neg _ _ h0]

theorem sliceSet_length {α : Type} (xs ys : List α) (c : Int) (v : α)
    (h : sliceSet xs c v = some ys) : ys.length = xs.length := by
  unfold sliceSet at h
  split at h
  · cases h; simp
  · cases h

theorem mapSet_same {β : Type} (m : LogLvl → β) (k : LogLvl) (v : β) : mapSet m k v k = v := by
  simp [mapSet]

theorem mapSet_other {β : Type} (m : LogLvl → β) (k x : LogLvl) (v : β) (h : x ≠ k) :
    mapSet m k v x = m x := by
  simp [mapSet, h]

theorem read_get (m : Memory) (s : Slice) (j : Nat) :
    (m.read s)[j]? = if j < s.len then (m s.arr)[s.off + j]? else none := by
  unfold Memory.read
  rw [List.getElem?_take, List.getElem?_drop]

theorem read_write_length (m : Memory) (s s2 : Slice) (i : Nat) (w : Writer) :
    ((m.write s i w).read s2).length = (m.read s2).length := by
  unfold Memory.read Memory.write
  by_cases h : s2.arr = s.arr
  · simp [h]
  · simp [h]

theorem read_write_same (m : Memory) (s : Slice) (i : Nat) (w : Writer)
    (h : i < (m.read s).length) : ((m.write s i w).read s)[i]? = some w := by
  have h1 : i < s.len ∧ s.off + i < (m s.arr).length := by
    unfold Memory.read at h
    rw [List.length_take, List.length_drop] at h
    omega
  rw [read_get, if_pos h1.1]
  unfold Memory.write
  simp [h1.2]

theorem read_write_other (m : Memory) (s s2 : Slice) (i j : Nat) (w : Writer)
    (h : s2.arr ≠ s.arr ∨ s2.off + j ≠ s.off + i) :
    ((m.write s i w).read s2)[j]? = (m.read s2)[j]? := by
  rw [read_get, read_get]
  unfold Memory.write
  by_cases ha : s2.arr = s.arr
  · have hj : s.off + i ≠ s2.off + j := by
      rcases h with h | h
      · exact absurd ha h
      · exact fun e => h e.symm
    simp [ha, List.getElem?_set, hj]
  · simp [ha]

theorem sliceGet_eq {α : Type} (xs : List α) (c : Int) :
    sliceGet xs c = if 0 ≤ c then xs[c.toNat]? else none := by
  unfold sliceGet
  split <;> simp

theorem setDestinationLvlColor_spec (l : Logger) (lvl : LogLvl) (cf : ColorFlag) (w : Writer)
    (hd : (l.Destinations lvl).length = 2) (hcf : cf = 0 ∨ cf = 1) :
    ∃ l1, l.SetDestinationLvlColor lvl cf w = .ok l1 ∧
      l1.LogMap = l.LogMap ∧
      sliceGet (l1.Destinations lvl) cf = some w ∧
      (∀ cf2 : ColorFlag, cf2 ≠ cf →
        sliceGet (l1.Destinations lvl) cf2 = sliceGet (l.Destinations lvl) cf2) ∧
      (∀ (lvl2 : LogLvl) (cf2 : ColorFlag), lvl2 ≠ lvl →
        l.cell lvl2 cf2.toNat ≠ l.cell lvl cf.toNat →
        sliceGet (l1.Destinations lvl2) cf2 = sliceGet (l.Destinations lvl2) cf2) := by
  have hc0 : (0 : Int) ≤ cf := by rcases hcf with h | h <;> (subst h; decide)
  have hc1 : cf.toNat < 2 := by rcases hcf with h | h <;> (subst h; decide)
  cases ht : l.destTable lvl with
  | own ws =>
    have hv : l.Destinations lvl = ws := by unfold Logger.Destinations; rw [ht]
    rw [hv] at hd
    obtain ⟨ws1, hws, -, hwget, hwother⟩ := sliceSet_two ws cf w hd hcf
    refine ⟨{ l with destTable := mapSet l.destTable lvl (.own ws1) }, ?_, rfl, ?_, ?_, ?_⟩
    · unfold Logger.SetDestinationLvlColor
      rw [ht]
      simp only [hws]
    · unfold Logger.Destinations
      simp only [mapSet_same]
      exact hwget
    · intro cf2 hne
      rw [hv]
      unfold Logger.Destinations
      simp only [mapSet_same]
      exact hwother cf2 hne
    · intro lvl2 cf2 hl _
      unfold Logger.Destinations
      simp only [mapSet_other _ _ _ _ hl]
  | caller s =>
    have hv : l.Destinations lvl = l.callerMem.read s := by unfold Logger.Destinations; rw [ht]
    rw [hv] at hd
    have hin : 0 ≤ cf ∧ cf.toNat < (l.callerMem.read s).length := by
      refine ⟨hc0, ?_⟩
      rw [hd]; exact hc1
    refine ⟨{ l with callerMem := l.callerMem.write s cf.toNat w }, ?_, rfl, ?_, ?_, ?_⟩
    · unfold Logger.SetDestinationLvlColor
      rw [ht]
      simp only [hin, and_self, if_true]
    · unfold Logger.Destinations
      simp only [ht]
      rw [sliceGet_eq, if_pos hc0]
      exact read_write_same _ _ _ _ hin.2
    · intro cf2 hne
      unfold Logger.Destinations
      simp only [ht]
      rw [sliceGet_eq, sliceGet_eq]
      have hne2 : (cf2 : Int) ≠ (cf : Int) := hne
      by_cases h2 : (0 : Int) ≤ cf2
      · rw [if_pos h2, if_pos h2]
        have hn : cf2.toNat ≠ cf.toNat := by
          intro e
          have e2 := Int.toNat_of_nonneg h2
          have e0 := Int.toNat_of_nonneg hc0
          exact hne2 (by rw [← e2, ← e0, e])
        exact read_write_other _ _ _ _ _ _ (Or.inr (by omega))
      · rw [if_neg h2, if_neg h2]
    · intro lvl2 cf2 hl hcell
      unfold Logger.Destinations
      simp only
      cases ht2 : l.destTable lvl2 with
      | own ws2 => rfl
      | caller s2 =>
        simp only
        rw [sliceGet_eq, sliceGet_eq]
        by_cases h2 : (0 : Int) ≤ cf2
        · rw [if_pos h2, if_pos h2]
          apply read_write_other
          have hcell2 : Cell.caller s2.arr (s2.off + cf2.toNat)
              ≠ Cell.caller s.arr (s.off + cf.toNat) := by
            simpa only [Logger.cell, ht, ht2] using hcell
          by_cases ha : s2.arr = s.arr
          · right
            intro e
            exact hcell2 (by rw [ha, e])
          · exact Or.inl ha
        · rw [if_neg h2, if_neg h2]

/-- C10, as the code has it: for every level with its two entries, colour mode
`NoColor` or `Color` and sink `w`, `SetAndEnableDestinationLvlColor(lvl, cf, w)`
returns; afterwards the sink of `(lvl, cf)` is `w`, its handler is the discard handler
if `w` is `ioutil.Discard` and otherwise the write handler of `cf` (plain for `NoColor`,
colour for `Color`); the handler of every other pair of level and colour mode is
unchanged, the sink of the other colour mode of `lvl` is unchanged, and the sink of a
pair of another level is unchanged when it is not the very element of memory that the
call writes. -/
theorem C10_setAndEnable_rederives_handler (l : Logger) (lvl : LogLvl) (cf : ColorFlag)
    (w : Writer) (h2 : hasTwo l lvl) (hcf : cf = NoColor ∨ cf = Color) :
    ∃ l1, l.SetAndEnableDestinationLvlColor lvl cf w = .ok l1 ∧
      sliceGet (l1.Destinations lvl) cf = some w ∧
      sliceGet (l1.LogMap lvl) cf = some
        (if w = Writer.Discard then genDiscardFunc
         else if cf = NoColor then genLogFunc lvl
         else genColorLogFunc lvl (LoggerColorSchemeDetached lvl)) ∧
      (∀ (lvl2 : LogLvl) (cf2 : ColorFlag), lvl2 ≠ lvl ∨ cf2 ≠ cf →
        sliceGet (l1.LogMap lvl2) cf2 = sliceGet (l.LogMap lvl2) cf2) ∧
      (∀ cf2 : ColorFlag, cf2 ≠ cf →
        sliceGet (l1.Destinations lvl) cf2 = sliceGet (l.Destinations lvl) cf2) ∧
      (∀ (lvl2 : LogLvl) (cf2 : ColorFlag), lvl2 ≠ lvl →
        l.cell lvl2 cf2.toNat ≠ l.cell lvl cf.toNat →
        sliceGet (l1.Destinations lvl2) cf2 = sliceGet (l.Destinations lvl2) cf2) := by
  obtain ⟨hm, hd⟩ := h2
  have hcf2 : cf = 0 ∨ cf = 1 := hcf
  obtain ⟨la, hset, hlm, hget, hsame, hother⟩ := setDestinationLvlColor_spec l lvl cf w hd hcf2
  have frame : ∀ (hs : List LogHandler),
      (∀ c2 : Int, c2 ≠ cf → sliceGet hs c2 = sliceGet (l.LogMap lvl) c2) →
      ∀ (lvl2 : LogLvl) (cf2 : ColorFlag), lvl2 ≠ lvl ∨ cf2 ≠ cf →
        sliceGet (mapSet la.LogMap lvl hs lvl2) cf2 = sliceGet (l.LogMap lvl2) cf2 := by
    intro hs hothers lvl2 cf2 hne
    by_cases hl : lvl2 = lvl
    · subst hl
      have hc : cf2 ≠ cf := by
        rcases hne with h1 | h1
        · exact absurd rfl h1
        · exact h1
      rw [mapSet_same]
      exact hothers cf2 hc
    · rw [mapSet_other _ _ _ _ hl, hlm]
  have run : ∀ (h : LogHandler) (hs : List LogHandler),
      sliceSet (l.LogMap lvl) cf h = some hs →
      la.setHandler lvl cf h = .ok { la with LogMap := mapSet la.LogMap lvl hs } := by
    intro h hs hhs
    unfold Logger.setHandler
    rw [hlm]
    simp only [hhs]
  by_cases hw : w = Writer.Discard
  · obtain ⟨hs, hhs, -, hhget, hhother⟩ :=
      sliceSet_two (l.LogMap lvl) cf genDiscardFunc hm hcf2
    refine ⟨{ la with LogMap := mapSet la.LogMap lvl hs }, ?_, hget, ?_, ?_, hsame, hother⟩
    · unfold Logger.SetAndEnableDestinationLvlColor
      rw [hset]
      simp only [bind, Except.bind, hw, if_true, Logger.DisableDestinationLvlColor]
      exact run _ hs hhs
    · simp [mapSet_same, hhget, hw]
    · exact frame hs hhother
  · rcases hcf with hc | hc
    · obtain ⟨hs, hhs, -, hhget, hhother⟩ :=
        sliceSet_two (l.LogMap lvl) cf (genLogFunc lvl) hm hcf2
      refine ⟨{ la with LogMap := mapSet la.LogMap lvl hs }, ?_, hget, ?_, ?_, hsame, hother⟩
      · unfold Logger.SetAndEnableDestinationLvlColor
        rw [hset]
        simp only [bind, Except.bind, hw, if_false, Logger.EnableDestinationLvlColor]
        rw [if_pos hc]
        exact run _ hs hhs
      · show sliceGet (mapSet la.LogMap lvl hs lvl) cf = _
        rw [mapSet_same, hhget, if_neg hw, if_pos hc]
      · exact frame hs hhother
    · obtain ⟨hs, hhs, -, hhget, hhother⟩ :=
        sliceSet_two (l.LogMap lvl) cf (genColorLogFunc lvl (LoggerColorSchemeDetached lvl)) hm
          hcf2
      have hne : ¬ (cf = NoColor) := by rw [hc]; decide
      refine ⟨{ la with LogMap := mapSet la.LogMap lvl hs }, ?_, hget, ?_, ?_, hsame, hother⟩
      · unfold Logger.SetAndEnableDestinationLvlColor
        rw [hset]
        simp only [bind, Except.bind, hw, if_false, Logger.EnableDestinationLvlColor]
        rw [if_neg hne, if_pos hc]
        exact run _ hs hhs
      · show sliceGet (mapSet la.LogMap lvl hs lvl) cf = _
        rw [mapSet_same, hhget, if_neg hw, if_neg hne]
      · exact frame hs hhother

/-! ## `SetDefaultDestinations` -/

theorem setDefaultLvl_at (w : Writer) (flag : DestinationFlag) (l : Logger) (k lvl : LogLvl) :
    (Logger.setDefaultLvl w flag l k).Destinations lvl
        = (if lvl = k ∧ fourFlags flag then sinksFor w flag else l.Destinations lvl) ∧
    (Logger.setDefaultLvl w flag l k).LogMap lvl
        = (if lvl = k ∧ fourFlags flag then handlersFor k flag else l.LogMap lvl) ∧
    (Logger.setDefaultLvl w flag l k).msgChan = l.msgChan := by
  unfold Logger.setDefaultLvl fourFlags sinksFor handlersFor
  by_cases h0 : flag = OFF_ALL
  · subst h0
    by_cases hk : lvl = k <;>
        simp [hk, mapSet, Logger.Destinations, OFF_ALL, ON_NO_COLOR, ON_COLOR, ON_ALL]
  · by_cases h1 : flag = ON_NO_COLOR
    · subst h1
      by_cases hk : lvl = k <;>
        simp [hk, mapSet, Logger.Destinations, OFF_ALL, ON_NO_COLOR, ON_COLOR, ON_ALL]
    · by_cases h2 : flag = ON_COLOR
      · subst h2
        by_cases hk : lvl = k <;>
        simp [hk, mapSet, Logger.Destinations, OFF_ALL, ON_NO_COLOR, ON_COLOR, ON_ALL]
      · by_cases h3 : flag = ON_ALL
        · subst h3
          by_cases hk : lvl = k <;>
        simp [hk, mapSet, Logger.Destinations, OFF_ALL, ON_NO_COLOR, ON_COLOR, ON_ALL]
        · simp [h0, h1, h2, h3]

theorem foldl_setDefaultLvl (w : Writer) (flag : DestinationFlag) :
    ∀ (ks : List LogLvl) (l : Logger) (lvl : LogLvl),
      (ks.foldl (Logger.setDefaultLvl w flag) l).Destinations lvl
          = (if lvl ∈ ks ∧ fourFlags flag then sinksFor w flag else l.Destinations lvl) ∧
      (ks.foldl (Logger.setDefaultLvl w flag) l).LogMap lvl
          = (if lvl ∈ ks ∧ fourFlags flag then handlersFor lvl flag else l.LogMap lvl) ∧
      (ks.foldl (Logger.setDefaultLvl w flag) l).msgChan = l.msgChan := by
  intro ks
  induction ks with
  | nil => intro l lvl; simp
  | cons k rest ih =>
    intro l lvl
    obtain ⟨h1, h2, h3⟩ := ih (Logger.setDefaultLvl w flag l k) lvl
    obtain ⟨g1, g2, g3⟩ := setDefaultLvl_at w flag l k lvl
    rw [List.foldl_cons, h1, h2, h3, g1, g2, g3]
    by_cases hf : fourFlags flag
    · by_cases hr : lvl ∈ rest
      · simp [hf, hr]
      · by_cases hk : lvl = k
        · subst hk; simp [hf, hr]
        · simp [hf, hr, hk]
    · simp [hf]

theorem setDefaultDestinations_at (l : Logger) (w : Writer) (flag : DestinationFlag)
    (lvl : LogLvl) :
    (l.SetDefaultDestinations w flag).Destinations lvl
        = (if lvl ∈ tableLevels ∧ fourFlags flag then sinksFor w flag else l.Destinations lvl) ∧
    (l.SetDefaultDestinations w flag).LogMap lvl
        = (if lvl ∈ tableLevels ∧ fourFlags flag then handlersFor lvl flag else l.LogMap lvl) ∧
    (l.SetDefaultDestinations w flag).msgChan = l.msgChan :=
  foldl_setDefaultLvl w flag tableLevels l lvl

/-- C10 at a logger built with `ON_ALL`: the sink of `(INFO, NoColor)` is replaced by
sink 2. -/
theorem C10_setAndEnable_witness :
    ∃ l, NewLogger exampleLimit (.sink 1) ON_ALL 10 0 0 (lit " ") exampleCSM = .ok l ∧
      (hasTwo l INFO ∧ (NoColor = NoColor ∨ NoColor = Color)) ∧
      ∃ l1, l.SetAndEnableDestinationLvlColor INFO NoColor (.sink 2) = .ok l1 ∧
        sliceGet (l1.Destinations INFO) NoColor = some (.sink 2) ∧
        sliceGet (l1.LogMap INFO) NoColor = some
          (if Writer.sink 2 = Writer.Discard then genDiscardFunc
           else if NoColor = NoColor then genLogFunc INFO
           else genColorLogFunc INFO (LoggerColorSchemeDetached INFO)) ∧
        (∀ (lvl2 : LogLvl) (cf2 : ColorFlag), lvl2 ≠ INFO ∨ cf2 ≠ NoColor →
          sliceGet (l1.LogMap lvl2) cf2 = sliceGet (l.LogMap lvl2) cf2) ∧
        (∀ cf2 : ColorFlag, cf2 ≠ NoColor →
          sliceGet (l1.Destinations INFO) cf2 = sliceGet (l.Destinations INFO) cf2) ∧
        (∀ (lvl2 : LogLvl) (cf2 : ColorFlag), lvl2 ≠ INFO →
          l.cell lvl2 cf2.toNat ≠ l.cell INFO NoColor.toNat →
          sliceGet (l1.Destinations lvl2) cf2 = sliceGet (l.Destinations lvl2) cf2) :=
  ⟨_, rfl, ⟨by decide, Or.inl rfl⟩,
    C10_setAndEnable_rederives_handler _ INFO NoColor (.sink 2) (by decide) (Or.inl rfl)⟩

/-- C10 fails as stated: a caller makes one slice `s` of the sinks 2 and 3 and hands it
to `SetDestinationLvl(INFO, s)` and to `SetDestinationLvl(DEBUG, s)`; both levels have
their two entries, and `SetAndEnableDestinationLvlColor(INFO, NoColor, sink 9)` then
changes the sink of `(DEBUG, NoColor)` from sink 2 to sink 9 as well. -/
theorem C10_shared_slice_counterexample :
    ∃ l0 l l1, NewLogger exampleLimit (.sink 1) ON_ALL 10 0 0 (lit " ") exampleCSM = .ok l0 ∧
      (l0.callerArray 0 [.sink 2, .sink 3]).controlAll
        [.setDestinationLvl INFO ⟨0, 0, 2⟩, .setDestinationLvl DEBUG ⟨0, 0, 2⟩] = .ok l ∧
      hasTwo l INFO ∧ hasTwo l DEBUG ∧
      sliceGet (l.Destinations DEBUG) NoColor = some (.sink 2) ∧
      l.SetAndEnableDestinationLvlColor INFO NoColor (.sink 9) = .ok l1 ∧
      sliceGet (l1.Destinations INFO) NoColor = some (.sink 9) ∧
      sliceGet (l1.Destinations DEBUG) NoColor = some (.sink 9) ∧
      sliceGet (l1.Destinations DEBUG) NoColor ≠ sliceGet (l.Destinations DEBUG) NoColor :=
  ⟨_, _, _, rfl, rfl, by decide, by decide, rfl, rfl, rfl, rfl, by decide⟩

/-- C9, as the code has it: `NewLogger(w, flag, n, ...)` with one of the four flags
and a capacity `n` from 0 up to what the run time grants a channel returns, and then
every level of the table has as sink of a colour mode that the flag turns on the
writer `w` itself (the nil writer when `w` is nil), and as sink of a colour mode that
the flag leaves off `ioutil.Discard`. -/
theorem C9_default_sinks_are_the_given_writer (chanLimit : Nat) (w : Writer)
    (flag : DestinationFlag) (n callDepth settingFlags : Int) (delimiter : Bytes) (csm : CSM)
    (hf : fourFlags flag) (hn : 0 ≤ n) (hlim : n ≤ (chanLimit : Int)) :
    ∃ l, NewLogger chanLimit w flag n callDepth settingFlags delimiter csm = .ok l ∧
      ∀ lvl, lvl ∈ tableLevels → l.Destinations lvl = sinksFor w flag := by
  have hn2 : ¬ (n < 0 ∨ (chanLimit : Int) < n) := by omega
  refine ⟨_, by unfold NewLogger; rw [if_neg hn2], ?_⟩
  intro lvl hl
  rw [(setDefaultDestinations_at _ w flag lvl).1]
  simp [hl, hf]

/-- C9 at the nil writer with `ON_ALL`: both sinks of every level of the table are
the nil writer. -/
theorem C9_default_sinks_witness :
    (fourFlags ON_ALL ∧ (0 : Int) ≤ 10 ∧ (10 : Int) ≤ (exampleLimit : Int)) ∧
    ∃ l, NewLogger exampleLimit .nil ON_ALL 10 0 0 (lit " ") exampleCSM = .ok l ∧
      ∀ lvl, lvl ∈ tableLevels → l.Destinations lvl = [Writer.nil, Writer.nil] :=
  ⟨by decide,
    C9_default_sinks_are_the_given_writer exampleLimit .nil ON_ALL 10 0 0 (lit " ") exampleCSM
      (by decide) (by decide) (by decide)⟩

/-- C9 fails as stated: after `NewLogger(nil, ON_ALL, 10, ...)` the sink of
`(INFO, NoColor)` is the nil writer, not `ioutil.Discard`; `Info("x")` queues two
messages and the consumer panics on the first write. -/
theorem C9_nil_sink_counterexample :
    ∃ l l1, NewLogger exampleLimit .nil ON_ALL 10 0 0 (lit " ") exampleCSM = .ok l ∧
      sliceGet (l.Destinations INFO) NoColor = some Writer.nil ∧
      sliceGet (l.Destinations INFO) NoColor ≠ some Writer.Discard ∧
      l.Info exampleEnv exampleEnv [.str (lit "x")] = .ok l1 ∧
      l1.msgChan.buf.length = 2 ∧
      l1.writeChanStep [] = .error .panic :=
  ⟨_, _, rfl, rfl, by decide, rfl, rfl, rfl⟩

/-! ## What the controller calls keep -/

theorem except_bind_ok {ε α β : Type} (x : Except ε α) (f : α → Except ε β) (b : β)
    (h : (x >>= f) = .ok b) : ∃ a, x = .ok a ∧ f a = .ok b := by
  cases x with
  | error e => simp [bind, Except.bind] at h
  | ok a => exact ⟨a, rfl, h⟩

theorem Keeps.refl (l : Logger) : Keeps l l := ⟨fun _ h => h, rfl⟩

theorem Keeps.trans {a b c : Logger} (h1 : Keeps a b) (h2 : Keeps b c) : Keeps a c :=
  ⟨fun lvl h => h2.1 lvl (h1.1 lvl h), h2.2.trans h1.2⟩

theorem setHandler_keeps (l l1 : Logger) (lvl : LogLvl) (c : ColorFlag) (h : LogHandler)
    (hr : l.setHandler lvl c h = .ok l1) : Keeps l l1 := by
  unfold Logger.setHandler at hr
  cases hs : sliceSet (l.LogMap lvl) c h with
  | none => rw [hs] at hr; cases hr
  | some hs1 =>
    rw [hs] at hr
    cases hr
    refine ⟨?_, rfl⟩
    intro x hx
    unfold hasTwo at hx ⊢
    by_cases hxl : x = lvl
    · subst hxl
      simp only [mapSet_same]
      rw [sliceSet_length _ _ _ _ hs]
      exact hx
    · simp only [mapSet_other _ _ _ _ hxl]
      exact hx

theorem setDestinationLvlColor_keeps (l l1 : Logger) (lvl : LogLvl) (c : ColorFlag) (w : Writer)
    (hr : l.SetDestinationLvlColor lvl c w = .ok l1) : Keeps l l1 := by
  unfold Logger.SetDestinationLvlColor at hr
  cases ht : l.destTable lvl with
  | own ws =>
    rw [ht] at hr
    simp only at hr
    cases hs : sliceSet ws c w with
    | none => rw [hs] at hr; cases hr
    | some ws1 =>
      rw [hs] at hr
      cases hr
      refine ⟨?_, rfl⟩
      intro x hx
      unfold hasTwo Logger.Destinations at hx ⊢
      by_cases hxl : x = lvl
      · subst hxl
        rw [ht] at hx
        simp only [mapSet_same]
        rw [sliceSet_length _ _ _ _ hs]
        exact hx
      · simp only [mapSet_other _ _ _ _ hxl]
        exact hx
  | caller s =>
    rw [ht] at hr
    simp only at hr
    split at hr
    · cases hr
      refine ⟨?_, rfl⟩
      intro x hx
      unfold hasTwo Logger.Destinations at hx ⊢
      simp only
      cases hx2 : l.destTable x with
      | own ws2 => rw [hx2] at hx; exact hx
      | caller s2 =>
        rw [hx2] at hx
        simp only at hx ⊢
        rw [read_write_length]
        exact hx
    · cases hr

theorem disableDestinationLvl_keeps (l l1 : Logger) (lvl : LogLvl)
    (hr : l.DisableDestinationLvl lvl = .ok l1) : Keeps l l1 := by
  unfold Logger.DisableDestinationLvl at hr
  obtain ⟨a, ha, hb⟩ := except_bind_ok _ _ _ hr
  exact (setHandler_keeps _ _ _ _ _ ha).trans (setHandler_keeps _ _ _ _ _ hb)

theorem enableDestinationLvl_keeps (l l1 : Logger) (lvl : LogLvl)
    (hr : l.EnableDestinationLvl lvl = .ok l1) : Keeps l l1 := by
  unfold Logger.EnableDestinationLvl at hr
  obtain ⟨a, ha, hb⟩ := except_bind_ok _ _ _ hr
  exact (setHandler_keeps _ _ _ _ _ ha).trans (setHandler_keeps _ _ _ _ _ hb)

theorem enableDestinationLvlColor_keeps (l l1 : Logger) (lvl : LogLvl) (c : ColorFlag)
    (hr : l.EnableDestinationLvlColor lvl c = .ok l1) : Keeps l l1 := by
  unfold Logger.EnableDestinationLvlColor at hr
  split at hr
  · exact setHandler_keeps _ _ _ _ _ hr
  · split at hr
    · exact setHandler_keeps _ _ _ _ _ hr
    · cases hr; exact Keeps.refl l

theorem setAndEnableDestinationLvlColor_keeps (l l1 : Logger) (lvl : LogLvl) (c : ColorFlag)
    (w : Writer) (hr : l.SetAndEnableDestinationLvlColor lvl c w = .ok l1) : Keeps l l1 := by
  unfold Logger.SetAndEnableDestinationLvlColor at hr
  obtain ⟨a, ha, hb⟩ := except_bind_ok _ _ _ hr
  have h1 := setDestinationLvlColor_keeps _ _ _ _ _ ha
  split at hb
  · exact h1.trans (setHandler_keeps _ _ _ _ _ hb)
  · exact h1.trans (enableDestinationLvlColor_keeps _ _ _ _ hb)

theorem setNewLvl_keeps (lvl : LogLvl) : ∀ (ws : List Writer) (color : Nat) (l l1 : Logger),
    Logger.setNewLvl lvl ws color l = .ok l1 → Keeps l l1 := by
  intro ws
  induction ws with
  | nil =>
    intro color l l1 hr
    unfold Logger.setNewLvl at hr
    cases hr
    exact Keeps.refl l
  | cons w rest ih =>
    intro color l l1 hr
    unfold Logger.setNewLvl at hr
    obtain ⟨a, ha, hb⟩ := except_bind_ok _ _ _ hr
    exact (setAndEnableDestinationLvlColor_keeps _ _ _ _ _ ha).trans (ih _ _ _ hb)

theorem setNewDestinations_keeps : ∀ (ds : List (LogLvl × List Writer)) (l l1 : Logger),
    l.SetNewDestinations ds = .ok l1 → Keeps l l1 := by
  intro ds
  induction ds with
  | nil =>
    intro l l1 hr
    unfold Logger.SetNewDestinations at hr
    cases hr
    exact Keeps.refl l
  | cons d rest ih =>
    intro l l1 hr
    obtain ⟨lvl, ws⟩ := d
    unfold Logger.SetNewDestinations at hr
    obtain ⟨a, ha, hb⟩ := except_bind_ok _ _ _ hr
    have h0 : Keeps l { l with destTable := mapSet l.destTable lvl (.own [.nil, .nil]),
                               LogMap := mapSet l.LogMap lvl [.nil, .nil] } := by
      refine ⟨?_, rfl⟩
      intro x hx
      unfold hasTwo Logger.Destinations at hx ⊢
      by_cases hxl : x = lvl
      · subst hxl
        simp [mapSet_same]
      · simp only [mapSet_other _ _ _ _ hxl]
        exact hx
    exact h0.trans ((setNewLvl_keeps _ _ _ _ _ ha).trans (ih _ _ hb))

theorem setDefaultDestinations_keeps (l : Logger) (w : Writer) (flag : DestinationFlag) :
    Keeps l (l.SetDefaultDestinations w flag) := by
  refine ⟨?_, (setDefaultDestinations_at l w flag 0).2.2⟩
  intro x hx
  obtain ⟨h1, h2, -⟩ := setDefaultDestinations_at l w flag x
  unfold hasTwo at hx ⊢
  rw [h1, h2]
  split
  · simp [sinksFor, handlersFor]
  · exact hx

theorem setDestinationLvl_keeps (l : Logger) (lvl : LogLvl) (s : Slice)
    (h : (l.callerMem.read s).length = 2) : Keeps l (l.SetDestinationLvl lvl s) := by
  refine ⟨?_, rfl⟩
  intro x hx
  unfold hasTwo Logger.Destinations at hx ⊢
  unfold Logger.SetDestinationLvl
  by_cases hxl : x = lvl
  · subst hxl
    simp only [mapSet_same]
    exact ⟨hx.1, h⟩
  · simp only [mapSet_other _ _ _ _ hxl]
    exact hx

theorem control_keeps (l l1 : Logger) (op : ControllerOp) (h2 : op.twoSinks l)
    (hr : l.control op = .ok l1) : Keeps l l1 := by
  cases op with
  | setColorScheme cs => cases hr; exact ⟨fun _ h => h, rfl⟩
  | setDefaultDestinations w flag => cases hr; exact setDefaultDestinations_keeps l w flag
  | setNewDestinations ds => exact setNewDestinations_keeps ds l l1 hr
  | setDestinationLvl lvl ws => cases hr; exact setDestinationLvl_keeps l lvl ws h2
  | setDestinationLvlColor lvl color w => exact setDestinationLvlColor_keeps _ _ _ _ _ hr
  | disableDestinationLvl lvl => exact disableDestinationLvl_keeps _ _ _ hr
  | disableDestinationLvlColor lvl color => exact setHandler_keeps _ _ _ _ _ hr
  | enableDestinationLvl lvl => exact enableDestinationLvl_keeps _ _ _ hr
  | enableDestinationLvlColor lvl color => exact enableDestinationLvlColor_keeps _ _ _ _ hr
  | setAndEnableDestinationLvl lvl ws =>
    exact (setDestinationLvl_keeps l lvl ws h2).trans (enableDestinationLvl_keeps _ _ _ hr)
  | setAndEnableDestinationLvlColor lvl color w =>
    exact setAndEnableDestinationLvlColor_keeps _ _ _ _ _ hr

theorem control_msgChan (l l1 : Logger) (op : ControllerOp) (hr : l.control op = .ok l1) :
    l1.msgChan = l.msgChan := by
  cases op with
  | setDestinationLvl lvl ws => cases hr; rfl
  | setAndEnableDestinationLvl lvl ws => exact (enableDestinationLvl_keeps _ _ _ hr).2
  | setColorScheme cs => exact (control_keeps l l1 _ (by exact trivial) hr).2
  | setDefaultDestinations w flag => exact (control_keeps l l1 _ (by exact trivial) hr).2
  | setNewDestinations ds => exact (control_keeps l l1 _ (by exact trivial) hr).2
  | setDestinationLvlColor lvl color w => exact (control_keeps l l1 _ (by exact trivial) hr).2
  | disableDestinationLvl lvl => exact (control_keeps l l1 _ (by exact trivial) hr).2
  | disableDestinationLvlColor lvl color => exact (control_keeps l l1 _ (by exact trivial) hr).2
  | enableDestinationLvl lvl => exact (control_keeps l l1 _ (by exact trivial) hr).2
  | enableDestinationLvlColor lvl color => exact (control_keeps l l1 _ (by exact trivial) hr).2
  | setAndEnableDestinationLvlColor lvl color w => exact (control_keeps l l1 _ (by exact trivial) hr).2

theorem controlAll_msgChan : ∀ (ops : List ControllerOp) (l l1 : Logger),
    l.controlAll ops = .ok l1 → l1.msgChan = l.msgChan := by
  intro ops
  induction ops with
  | nil => intro l l1 hr; unfold Logger.controlAll at hr; cases hr; rfl
  | cons op rest ih =>
    intro l l1 hr
    unfold Logger.controlAll at hr
    cases hc : l.control op with
    | error e => rw [hc] at hr; cases hr
    | ok a =>
      rw [hc] at hr
      exact (ih a l1 hr).trans (control_msgChan l a op hc)

/-! ## The two entries of a level -/

theorem hasTwo_entries (l : Logger) (lvl : LogLvl) (h : hasTwo l lvl) :
    (∃ h0 h1, sliceGet (l.LogMap lvl) NoColor = some h0 ∧
      sliceGet (l.LogMap lvl) Color = some h1) ∧
    (∃ w0 w1, sliceGet (l.Destinations lvl) NoColor = some w0 ∧
      sliceGet (l.Destinations lvl) Color = some w1) := by
  obtain ⟨hm, hd⟩ := h
  constructor
  · match hl : l.LogMap lvl, hm with
    | [a, b], _ => exact ⟨a, b, rfl, rfl⟩
  · match hl : l.Destinations lvl, hd with
    | [a, b], _ => exact ⟨a, b, rfl, rfl⟩

/-- C2, as the code has it: after `SetDefaultDestinations`, and so after a
`NewLogger` whose capacity `n` is from 0 up to what the run time grants a channel,
with any of the four flags every level that is a key of `defaultDestinations` has
exactly two handler entries and exactly two sinks; a level with its two entries has a
handler and a sink for `NoColor` and for `Color`; and every controller call that
returns keeps the two entries of every level that has them, provided
`SetDestinationLvl` and `SetAndEnableDestinationLvl` are handed a slice of exactly two
sinks. -/
theorem C2_table_levels_keep_two_entries (l : Logger) (lvl : LogLvl) :
    (∀ (w : Writer) (flag : DestinationFlag), fourFlags flag → lvl ∈ tableLevels →
      hasTwo (l.SetDefaultDestinations w flag) lvl) ∧
    (∀ (chanLimit : Nat) (w : Writer) (flag : DestinationFlag) (n callDepth settingFlags : Int)
        (delimiter : Bytes) (csm : CSM), fourFlags flag → 0 ≤ n → n ≤ (chanLimit : Int) →
        lvl ∈ tableLevels →
      ∃ l0, NewLogger chanLimit w flag n callDepth settingFlags delimiter csm = .ok l0 ∧
        hasTwo l0 lvl) ∧
    (hasTwo l lvl →
      (∃ h0 h1, sliceGet (l.LogMap lvl) NoColor = some h0 ∧
        sliceGet (l.LogMap lvl) Color = some h1) ∧
      (∃ w0 w1, sliceGet (l.Destinations lvl) NoColor = some w0 ∧
        sliceGet (l.Destinations lvl) Color = some w1)) ∧
    (∀ (op : ControllerOp) (l1 : Logger), hasTwo l lvl → op.twoSinks l →
      l.control op = .ok l1 → hasTwo l1 lvl) := by
  have key : ∀ (l2 : Logger) (w : Writer) (flag : DestinationFlag), fourFlags flag →
      lvl ∈ tableLevels → hasTwo (l2.SetDefaultDestinations w flag) lvl := by
    intro l2 w flag hf hl
    obtain ⟨h1, h2, -⟩ := setDefaultDestinations_at l2 w flag lvl
    unfold hasTwo
    rw [h1, h2]
    simp [hf, hl, sinksFor, handlersFor]
  refine ⟨key l, ?_, hasTwo_entries l lvl, ?_⟩
  · intro chanLimit w flag n callDepth settingFlags delimiter csm hf hn hlim hl
    have hn2 : ¬ (n < 0 ∨ (chanLimit : Int) < n) := by omega
    exact ⟨_, by unfold NewLogger; rw [if_neg hn2], key _ w flag hf hl⟩
  · intro op l1 h2 hop hr
    exact (control_keeps l l1 op hop hr).1 lvl h2

/-- C2 at a logger built with `ON_ALL`: `ERROR` has its two entries, and keeps them
when the level is disabled. -/
theorem C2_table_levels_witness :
    NewLogger exampleLimit (.sink 1) ON_ALL 10 0 0 (lit " ") exampleCSM
      = .ok (exampleLogger (.sink 1) ON_ALL) ∧
    ∃ l1, hasTwo (exampleLogger (.sink 1) ON_ALL) ERROR ∧
      (exampleLogger (.sink 1) ON_ALL).control (.disableDestinationLvl ERROR) = .ok l1 ∧
      hasTwo l1 ERROR :=
  ⟨rfl, _, by decide, rfl,
    (C2_table_levels_keep_two_entries (exampleLogger (.sink 1) ON_ALL) ERROR).2.2.2
      (.disableDestinationLvl ERROR) _ (by decide) trivial rfl⟩

/-- C2 fails as stated: on the logger that `NewLogger(w, ON_ALL, 10, ...)` returns,
`INFO` has its two sinks, and after the controller call `SetDestinationLvl(INFO, s)`
with the caller's slice `s` of the one sink 2 it has one, so that the consumer panics
on a queued `Color` message of `INFO`. -/
theorem C2_setDestinationLvl_counterexample :
    ∃ l l1 l2, NewLogger exampleLimit (.sink 1) ON_ALL 10 0 0 (lit " ") exampleCSM = .ok l ∧
      hasTwo l INFO ∧
      (l.callerArray 0 [.sink 2]).control (.setDestinationLvl INFO ⟨0, 0, 1⟩) = .ok l1 ∧
      (l1.Destinations INFO).length = 1 ∧ ¬ hasTwo l1 INFO ∧
      l1.LogC exampleEnv INFO Color [.str (lit "x")] = .ok l2 ∧
      l2.writeChanStep [] = .error .panic :=
  ⟨_, _, _, rfl, by decide, rfl, rfl, by decide, rfl, rfl⟩

/-! ## The queue: `log`, the consumer -/

theorem sendLine_ok (l l1 : Logger) (header : Option Bytes) (lvl : LogLvl) (cf : ColorFlag)
    (text : Bytes) (h : l.sendLine header lvl cf text = .ok l1) :
    ∃ hdr, header = some hdr ∧
      l1 = { l with msgChan :=
              { l.msgChan with buf := l.msgChan.buf ++ [⟨lvl, cf, hdr ++ text ++ [10]⟩] } } ∧
      l.msgChan.closed = false ∧ l.msgChan.buf.length < l.msgChan.cap := by
  cases header with
  | none => cases h
  | some hdr =>
    refine ⟨hdr, rfl, ?_⟩
    simp only [Logger.sendLine, concatStrings, Chan.send] at h
    by_cases hc : l.msgChan.closed = true
    · simp [hc] at h
    · by_cases hlen : l.msgChan.buf.length < l.msgChan.cap
      · simp only [hc, hlen, if_true] at h
        cases h
        have hcf : l.msgChan.closed = false := by simpa using hc
        exact ⟨by simp [hcf], hcf, hlen⟩
      · simp [hc, hlen] at h

theorem log_ok (env : Env) (l l1 : Logger) (lvl : LogLvl) (cf : ColorFlag) (text : Bytes)
    (h : l.log env lvl cf text = .ok l1) :
    ∃ hdr, getSystemInfo env l.settingsFlags (wrap64 (l.callDepth + 5)) = some hdr ∧
      l1 = { l with msgChan :=
              { l.msgChan with buf := l.msgChan.buf ++ [⟨lvl, cf, hdr ++ text ++ [10]⟩] } } ∧
      l.msgChan.closed = false ∧ l.msgChan.buf.length < l.msgChan.cap :=
  sendLine_ok l l1 _ lvl cf text h

theorem writeChanStep_head (l : Logger) (out o : Output) (m : LogMsg) (rest : List LogMsg)
    (w : Writer) (hb : l.msgChan.buf = m :: rest)
    (hw : sliceGet (l.Destinations m.lvl) m.cf = some w)
    (ho : ioWriteString w m.text out = some o) :
    l.writeChanStep out = .ok (some ({ l with msgChan := { l.msgChan with buf := rest } }, o)) := by
  unfold Logger.writeChanStep
  rw [hb]
  simp only [hw, ho]

theorem writeChanStep_ok (l l1 : Logger) (out out1 : Output)
    (h : l.writeChanStep out = .ok (some (l1, out1))) :
    l1.Destinations = l.Destinations ∧ l1.msgChan.buf = l.msgChan.buf.drop 1 ∧
      1 ≤ l.msgChan.buf.length := by
  unfold Logger.writeChanStep at h
  cases hb : l.msgChan.buf with
  | nil =>
    rw [hb] at h
    simp only at h
    split at h <;> cases h
  | cons m rest =>
    rw [hb] at h
    simp only at h
    cases hw : sliceGet (l.Destinations m.lvl) m.cf with
    | none => rw [hw] at h; cases h
    | some w =>
      rw [hw] at h
      simp only at h
      cases ho : ioWriteString w m.text out with
      | none => rw [ho] at h; cases h
      | some o =>
        rw [ho] at h
        simp only [Except.ok.injEq, Option.some.injEq, Prod.mk.injEq] at h
        obtain ⟨h1, -⟩ := h
        subst h1
        exact ⟨rfl, by simp, by simp⟩

theorem drainN_ok : ∀ (n : Nat) (l l1 : Logger) (out out1 : Output),
    l.drainN n out = .ok (l1, out1) →
    l1.Destinations = l.Destinations ∧ l1.msgChan.buf = l.msgChan.buf.drop n := by
  intro n
  induction n with
  | zero =>
    intro l l1 out out1 h
    unfold Logger.drainN at h
    cases h
    exact ⟨rfl, rfl⟩
  | succ n ih =>
    intro l l1 out out1 h
    unfold Logger.drainN at h
    cases hs : l.writeChanStep out with
    | error e => rw [hs] at h; cases h
    | ok r =>
      cases r with
      | none => rw [hs] at h; cases h
      | some p =>
        obtain ⟨l2, out2⟩ := p
        rw [hs] at h
        obtain ⟨a1, a2, -⟩ := writeChanStep_ok l l2 out out2 hs
        obtain ⟨b1, b2⟩ := ih l2 l1 out2 out1 h
        refine ⟨b1.trans a1, ?_⟩
        rw [b2, a2, List.drop_drop]
        congr 1
        omega

/-- C1, as the code has it: a message queued by `log(lvl, cf, text)` stays in the
queue through every later sequence of controller calls, and when the consumer has
written the messages queued before it and dequeues it, the text goes to the sink that
is in `Destinations[lvl][cf]` then, after the reconfiguration, whatever the sink at
enqueue time was; the consumer panics when that entry is missing or the nil writer. -/
theorem C1_sink_is_looked_up_at_dequeue (env : Env) (l l1 l2 l3 : Logger) (lvl : LogLvl)
    (cf : ColorFlag) (text : Bytes) (ops : List ControllerOp) (out out3 : Output)
    (hlog : l.log env lvl cf text = .ok l1)
    (hops : l1.controlAll ops = .ok l2)
    (hdrain : l2.drainN l.msgChan.buf.length out = .ok (l3, out3)) :
    ∃ hdr, getSystemInfo env l.settingsFlags (wrap64 (l.callDepth + 5)) = some hdr ∧
      l2.msgChan.buf = l.msgChan.buf ++ [⟨lvl, cf, hdr ++ text ++ [10]⟩] ∧
      l3.msgChan.buf = [⟨lvl, cf, hdr ++ text ++ [10]⟩] ∧
      (∀ w o, sliceGet (l2.Destinations lvl) cf = some w →
        ioWriteString w (hdr ++ text ++ [10]) out3 = some o →
        l3.writeChanStep out3
          = .ok (some ({ l3 with msgChan := { l3.msgChan with buf := [] } }, o))) ∧
      (sliceGet (l2.Destinations lvl) cf = none ∨
          sliceGet (l2.Destinations lvl) cf = some Writer.nil →
        l3.writeChanStep out3 = .error .panic) := by
  obtain ⟨hdr, hh, hl1, -, -⟩ := log_ok env l l1 lvl cf text hlog
  have hq := controlAll_msgChan ops l1 l2 hops
  obtain ⟨hd, hb⟩ := drainN_ok _ l2 l3 out out3 hdrain
  have hb2 : l2.msgChan.buf = l.msgChan.buf ++ [⟨lvl, cf, hdr ++ text ++ [10]⟩] := by
    rw [hq, hl1]
  have hb3 : l3.msgChan.buf = [⟨lvl, cf, hdr ++ text ++ [10]⟩] := by
    rw [hb, hb2]
    simp
  refine ⟨hdr, hh, hb2, hb3, ?_, ?_⟩
  · intro w o hw ho
    exact writeChanStep_head l3 out3 o _ [] w hb3 (by rw [hd]; exact hw) ho
  · intro hbad
    unfold Logger.writeChanStep
    rw [hb3, hd]
    rcases hbad with hn | hn
    · simp only [hn]
    · simp only [hn, ioWriteString]

/-- C1 at a logger built with `ON_ALL` on sink 1: the message `m` is queued for
`(INFO, NoColor)`, the destination of `(INFO, NoColor)` is then set to sink 2, and the
consumer writes the line to sink 2. -/
theorem C1_sink_witness :
    ∃ l1 l2, (exampleLogger (.sink 1) ON_ALL).log exampleEnv INFO NoColor (lit "m") = .ok l1 ∧
      l1.controlAll [.setDestinationLvlColor INFO NoColor (.sink 2)] = .ok l2 ∧
      l2.drainN 0 [] = .ok (l2, []) ∧
      ∃ hdr, getSystemInfo exampleEnv 0 (wrap64 (0 + 5)) = some hdr ∧
        l2.msgChan.buf = [] ++ [⟨INFO, NoColor, hdr ++ lit "m" ++ [10]⟩] ∧
        l2.msgChan.buf = [⟨INFO, NoColor, hdr ++ lit "m" ++ [10]⟩] ∧
        (∀ w o, sliceGet (l2.Destinations INFO) NoColor = some w →
          ioWriteString w (hdr ++ lit "m" ++ [10]) [] = some o →
          l2.writeChanStep []
            = .ok (some ({ l2 with msgChan := { l2.msgChan with buf := [] } }, o))) ∧
        (sliceGet (l2.Destinations INFO) NoColor = none ∨
            sliceGet (l2.Destinations INFO) NoColor = some Writer.nil →
          l2.writeChanStep [] = .error .panic) :=
  ⟨_, _, rfl, rfl, rfl,
    C1_sink_is_looked_up_at_dequeue exampleEnv (exampleLogger (.sink 1) ON_ALL) _ _ _ INFO
      NoColor (lit "m") [.setDestinationLvlColor INFO NoColor (.sink 2)] [] [] rfl rfl rfl⟩

/-- C1 fails as stated: `log(INFO, NoColor, "m")` queues the message while sink 1 is the
destination of `(INFO, NoColor)`; `SetDestinationLvlColor(INFO, NoColor, sink 2)`
follows; the consumer then writes the line to sink 2, and nothing to sink 1. -/
theorem C1_snapshot_counterexample :
    ∃ l1 l2 l3, sliceGet ((exampleLogger (.sink 1) ON_ALL).Destinations INFO) NoColor
        = some (.sink 1) ∧
      (exampleLogger (.sink 1) ON_ALL).log exampleEnv INFO NoColor (lit "m") = .ok l1 ∧
      l1.msgChan.buf = [⟨INFO, NoColor, lit "m" ++ [10]⟩] ∧
      l1.SetDestinationLvlColor INFO NoColor (.sink 2) = .ok l2 ∧
      l2.writeChanStep [] = .ok (some (l3, [(2, lit "m" ++ [10])])) :=
  ⟨_, _, _, rfl, rfl, rfl, rfl, rfl⟩

/-! ## Enabling a level -/

theorem setHandler_two (l : Logger) (lvl : LogLvl) (a b h : LogHandler)
    (hm : l.LogMap lvl = [a, b]) :
    l.setHandler lvl NoColor h = .ok { l with LogMap := mapSet l.LogMap lvl [h, b] } ∧
    l.setHandler lvl Color h = .ok { l with LogMap := mapSet l.LogMap lvl [a, h] } := by
  unfold Logger.setHandler
  rw [hm]
  exact ⟨rfl, rfl⟩

/-- C4, what the code does: on every level with its two handler entries,
`EnableDestinationLvl(lvl)` returns with the colour write handler in the `NoColor`
entry and the plain write handler in the `Color` entry, the transpose of what
`EnableDestinationLvlColor(lvl, NoColor)` followed by
`EnableDestinationLvlColor(lvl, Color)` stores. -/
theorem C4_enableDestinationLvl_transposed (l : Logger) (lvl : LogLvl) (h : hasTwo l lvl) :
    ∃ l1 l2 l3, l.EnableDestinationLvl lvl = .ok l1 ∧
      l1.LogMap lvl = [genColorLogFunc lvl (LoggerColorSchemeDetached lvl), genLogFunc lvl] ∧
      l.EnableDestinationLvlColor lvl NoColor = .ok l2 ∧
      l2.EnableDestinationLvlColor lvl Color = .ok l3 ∧
      l3.LogMap lvl = [genLogFunc lvl, genColorLogFunc lvl (LoggerColorSchemeDetached lvl)] := by
  obtain ⟨hm, -⟩ := h
  match hl : l.LogMap lvl, hm with
  | [a, b], _ =>
    have s1 := (setHandler_two l lvl a b (genLogFunc lvl) hl).2
    have s2 := (setHandler_two { l with LogMap := mapSet l.LogMap lvl [a, genLogFunc lvl] } lvl a
      (genLogFunc lvl) (genColorLogFunc lvl (LoggerColorSchemeDetached lvl))
      (by simp [mapSet])).1
    have t1 := (setHandler_two l lvl a b (genLogFunc lvl) hl).1
    have t2 := (setHandler_two { l with LogMap := mapSet l.LogMap lvl [genLogFunc lvl, b] } lvl
      (genLogFunc lvl) b (genColorLogFunc lvl (LoggerColorSchemeDetached lvl))
      (by simp [mapSet])).2
    have hne : ¬ (Color = NoColor) := by decide
    exact ⟨_, _, _,
      (by unfold Logger.EnableDestinationLvl; rw [s1]; exact s2),
      (by simp [mapSet]),
      (by unfold Logger.EnableDestinationLvlColor; rw [if_pos rfl]; exact t1),
      (by unfold Logger.EnableDestinationLvlColor; rw [if_neg hne, if_pos rfl]; exact t2),
      (by simp [mapSet])⟩

/-- C4 at a logger built with `ON_ALL` on sink 1, level `INFO`; after
`EnableDestinationLvl(INFO)` the call `LogC(INFO, NoColor, "x")` queues a `Color`
message with the coloured text. -/
theorem C4_enableDestinationLvl_witness :
    hasTwo (exampleLogger (.sink 1) ON_ALL) INFO ∧
    (∃ l1 l2 l3, (exampleLogger (.sink 1) ON_ALL).EnableDestinationLvl INFO = .ok l1 ∧
      l1.LogMap INFO = [genColorLogFunc INFO (LoggerColorSchemeDetached INFO), genLogFunc INFO] ∧
      (exampleLogger (.sink 1) ON_ALL).EnableDestinationLvlColor INFO NoColor = .ok l2 ∧
      l2.EnableDestinationLvlColor INFO Color = .ok l3 ∧
      l3.LogMap INFO = [genLogFunc INFO, genColorLogFunc INFO (LoggerColorSchemeDetached INFO)]) ∧
    ∃ l1 l4, (exampleLogger (.sink 1) ON_ALL).EnableDestinationLvl INFO = .ok l1 ∧
      l1.LogC exampleEnv INFO NoColor [.str (lit "x")] = .ok l4 ∧
      l4.msgChan.buf = [⟨INFO, Color, lit "REDx RESET" ++ [10]⟩] :=
  ⟨by decide,
    C4_enableDestinationLvl_transposed (exampleLogger (.sink 1) ON_ALL) INFO (by decide),
    _, _, rfl, rfl, rfl⟩

/-- C3, what the code does on a logger built with `ON_ALL` on sink 1: before the
disable, `Log(INFO, "x")` queues the plain `NoColor` message and then the coloured
`Color` message, and `LogC(INFO, NoColor, "x")` queues the plain `NoColor` message;
after `DisableDestinationLvl(INFO)` and `EnableDestinationLvl(INFO)`, `Log(INFO, "x")`
queues the coloured `Color` message first and the plain `NoColor` message second, and
`LogC(INFO, NoColor, "x")` queues the coloured `Color` message. -/
theorem C3_disable_enable_changes_output :
    ∃ l1 l2 a b c d,
      (exampleLogger (.sink 1) ON_ALL).DisableDestinationLvl INFO = .ok l1 ∧
      l1.EnableDestinationLvl INFO = .ok l2 ∧
      l2.Destinations INFO = (exampleLogger (.sink 1) ON_ALL).Destinations INFO ∧
      (exampleLogger (.sink 1) ON_ALL).Log exampleEnv exampleEnv INFO [.str (lit "x")] = .ok a ∧
      a.msgChan.buf = [⟨INFO, NoColor, lit "x " ++ [10]⟩, ⟨INFO, Color, lit "REDx RESET" ++ [10]⟩] ∧
      l2.Log exampleEnv exampleEnv INFO [.str (lit "x")] = .ok b ∧
      b.msgChan.buf = [⟨INFO, Color, lit "REDx RESET" ++ [10]⟩, ⟨INFO, NoColor, lit "x " ++ [10]⟩] ∧
      (exampleLogger (.sink 1) ON_ALL).LogC exampleEnv INFO NoColor [.str (lit "x")] = .ok c ∧
      c.msgChan.buf = [⟨INFO, NoColor, lit "x " ++ [10]⟩] ∧
      l2.LogC exampleEnv INFO NoColor [.str (lit "x")] = .ok d ∧
      d.msgChan.buf = [⟨INFO, Color, lit "REDx RESET" ++ [10]⟩] :=
  ⟨_, _, _, _, _, _, rfl, rfl, rfl, rfl, rfl, rfl, rfl, rfl, rfl, rfl, rfl⟩

/-! ## `Close` -/

theorem closeChan_ok (l l1 : Logger) (h : l.closeChan = .ok l1) :
    l1 = { l with msgChan := { l.msgChan with closed := true } } ∧ l.msgChan.closed = false := by
  unfold Logger.closeChan Chan.close at h
  by_cases hc : l.msgChan.closed = true
  · simp [hc] at h
  · have hcf : l.msgChan.closed = false := by simpa using hc
    simp only [hcf] at h
    cases h
    exact ⟨by simp [hcf], hcf⟩

theorem closeChan_closed (l : Logger) (h : l.msgChan.closed = true) :
    l.closeChan = .error .panic := by
  unfold Logger.closeChan Chan.close
  simp [h]

theorem close_empty (l : Logger) (timerFired : Bool) (consumed slept : Nat)
    (h : l.msgChan.buf = []) : l.Close timerFired consumed slept = l.closeChan := by
  unfold Logger.Close
  simp [h]

theorem close_reaches_close (l : Logger) (timerFired : Bool) (consumed slept : Nat)
    (h : l.msgChan.buf = [] ∨ timerFired = true ∨ l.msgChan.buf.length ≤ consumed) :
    l.Close timerFired consumed slept = l.closeChan ∨
    l.Close timerFired consumed slept
      = Logger.closeChan
          { l with msgChan := { l.msgChan with buf := l.msgChan.buf.drop consumed } } := by
  unfold Logger.Close
  by_cases h0 : l.msgChan.buf.length = 0
  · rw [if_pos h0]
    exact Or.inl rfl
  · rw [if_neg h0]
    right
    simp only
    by_cases ht : timerFired = true
    · rw [if_pos ht]
    · rw [if_neg ht]
      have h1 : (List.drop consumed l.msgChan.buf).length = 0 := by
        rcases h with h | h | h
        · rw [h] at h0; exact absurd rfl h0
        · exact absurd h ht
        · rw [List.length_drop]; omega
      rw [if_pos h1]

/-- C7, as the code has it: `Close()` keeps no record of an earlier close. A first
`Close()` that returns after it has reached `close(l.msgChan)` (the queue empty at one
of its two readings of the length, or its timer fired) leaves the channel closed; on a
closed channel, whatever the consumer has taken off the queue meanwhile, a second
`Close()` that reaches `close(l.msgChan)` in turn panics; and so, when the queue is
empty at the first call, every second `Close()` panics. -/
theorem C7_second_close (l l1 : Logger) (timerFired : Bool) (consumed slept : Nat)
    (h : l.Close timerFired consumed slept = .ok l1) :
    (l.msgChan.buf = [] ∨ timerFired = true ∨ l.msgChan.buf.length ≤ consumed →
      l1.msgChan.closed = true) ∧
    (l1.msgChan.closed = true →
      ∀ (k : Nat) (timerFired2 : Bool) (consumed2 slept2 : Nat),
        l1.msgChan.buf.drop k = [] ∨ timerFired2 = true ∨
          (l1.msgChan.buf.drop k).length ≤ consumed2 →
        Logger.Close { l1 with msgChan := { l1.msgChan with buf := l1.msgChan.buf.drop k } }
          timerFired2 consumed2 slept2 = .error .panic) ∧
    (l.msgChan.buf = [] →
      ∀ (timerFired2 : Bool) (consumed2 slept2 : Nat),
        l1.Close timerFired2 consumed2 slept2 = .error .panic) := by
  have first : l.msgChan.buf = [] ∨ timerFired = true ∨ l.msgChan.buf.length ≤ consumed →
      l1.msgChan.closed = true := by
    intro hreach
    rcases close_reaches_close l timerFired consumed slept hreach with e | e
    · rw [e] at h
      rw [(closeChan_ok _ _ h).1]
    · rw [e] at h
      rw [(closeChan_ok _ _ h).1]
  refine ⟨first, ?_, ?_⟩
  · intro hclosed k tf2 c2 s2 hreach
    rcases close_reaches_close
      { l1 with msgChan := { l1.msgChan with buf := l1.msgChan.buf.drop k } } tf2 c2 s2 hreach
      with e | e
    · rw [e]
      exact closeChan_closed _ hclosed
    · rw [e]
      exact closeChan_closed _ hclosed
  · intro he tf2 c2 s2
    have hclosed := first (Or.inl he)
    have hb : l1.msgChan.buf = [] := by
      rw [close_empty l timerFired consumed slept he] at h
      rw [(closeChan_ok _ _ h).1]
      exact he
    rw [close_empty l1 tf2 c2 s2 hb]
    exact closeChan_closed l1 hclosed

/-- C7 at a logger built with `ON_ALL` whose queue is empty: the first `Close()`
returns with the channel closed, and the second panics. -/
theorem C7_second_close_witness :
    ∃ l1, (exampleLogger (.sink 1) ON_ALL).Close false 0 0 = .ok l1 ∧
      l1.msgChan.closed = true ∧
      (∀ (timerFired2 : Bool) (consumed2 slept2 : Nat),
        l1.Close timerFired2 consumed2 slept2 = .error .panic) :=
  ⟨_, rfl, rfl,
    (C7_second_close (exampleLogger (.sink 1) ON_ALL) _ false 0 0 rfl).2.2 rfl⟩

/-- C7 fails as stated: on the logger that `NewLogger(w, ON_ALL, 10, ...)` returns, the
first `Close()` returns with the channel closed and the second `Close()` panics. -/
theorem C7_double_close_counterexample :
    ∃ l l1, NewLogger exampleLimit (.sink 1) ON_ALL 10 0 0 (lit " ") exampleCSM = .ok l ∧
      l.Close false 0 0 = .ok l1 ∧ l1.msgChan.closed = true ∧
      l1.Close false 0 0 = .error .panic ∧ l1.Close true 0 0 = .error .panic :=
  ⟨_, _, rfl, rfl, rfl, rfl, rfl⟩

/-- C8, what the code does: when the queue is non-empty, the timer has not fired when
the `select` runs and the consumer leaves at least one message in the queue at the
second reading of the length, `Close()` sleeps and returns without closing the channel:
the `closed` flag is what it was, whatever the consumer takes off during the sleep. -/
theorem C8_close_returns_without_closing (l : Logger) (consumed slept : Nat)
    (h : consumed < l.msgChan.buf.length) :
    l.Close false consumed slept
      = .ok { l with msgChan :=
                { l.msgChan with buf := (l.msgChan.buf.drop consumed).drop slept } } := by
  have h0 : ¬ l.msgChan.buf.length = 0 := by omega
  have h1 : ¬ (List.drop consumed l.msgChan.buf).length = 0 := by
    rw [List.length_drop]; omega
  unfold Logger.Close
  rw [if_neg h0]
  simp only [Bool.false_eq_true, if_false]
  rw [if_neg h1]

/-- C8 at a logger built with `ON_ALL` after `Info("x")`: two messages are queued, the
consumer is idle, and `Close()` returns with the channel still open and both messages
in the queue. -/
theorem C8_close_witness :
    ∃ l, (exampleLogger (.sink 1) ON_ALL).Info exampleEnv exampleEnv [.str (lit "x")] = .ok l ∧
      l.msgChan.buf.length = 2 ∧ (0 < l.msgChan.buf.length) ∧
      ∃ l1, l.Close false 0 0 = .ok l1 ∧ l1.msgChan.closed = false ∧ l1.msgChan.buf.length = 2 :=
  ⟨_, rfl, rfl, by decide,
    _, C8_close_returns_without_closing _ 0 0 (by decide), rfl, rfl⟩

/-! ## The levels that `defaultDestinations` leaves out -/

/-- Of the eighteen constants of `LogLvl`, `MEMCHD_OK` and `MEMCHD_FAIL` are not keys
of `defaultDestinations`. -/
theorem tableLevels_leave_out :
    allLevels.filter (fun lvl => decide (lvl ∉ tableLevels)) = [MEMCHD_OK, MEMCHD_FAIL] := by
  decide

/-- On a logger built with `ON_ALL`, `MEMCHD_OK` has no handler entry and
`Log(MEMCHD_OK, "x")` panics on the index. -/
theorem memchd_ok_has_no_entry :
    (exampleLogger (.sink 1) ON_ALL).LogMap MEMCHD_OK = [] ∧
    (exampleLogger (.sink 1) ON_ALL).Log exampleEnv exampleEnv MEMCHD_OK [.str (lit "x")]
      = .error .panic :=
  ⟨rfl, rfl⟩

/-! ## `itoa` on its own -/

theorem itoaLoop_plain : ∀ (s n : Nat) (wid : Int) (acc : Bytes),
    (decimal n).length ≤ s → wid ≤ 1 →
    -9223372036854775808 + ((decimal n).length : Int) ≤ wid + 1 →
    itoaLoop s (n : Int) wid acc = some (decimal n ++ acc) := by
  intro s
  induction s with
  | zero =>
    intro n wid acc h
    have := decimal_length_pos n
    omega
  | succ s ih =>
    intro n wid acc hlen hw hlo
    unfold itoaLoop
    have hq : Int.tdiv (n : Int) 10 = ((n / 10 : Nat) : Int) := by
      rw [Int.tdiv_eq_ediv (by omega) (by omega)]; simp
    by_cases h10 : 10 ≤ n
    · have hc : (n : Int) ≥ 10 ∨ wid > 1 := Or.inl (by omega)
      have hd := decimal_step n h10
      have hl : (decimal n).length = (decimal (n / 10)).length + 1 := by rw [hd]; simp
      have hp := decimal_length_pos (n / 10)
      simp only [hc, if_true]
      rw [wrap64_id (wid - 1) (by omega) (by omega), hq]
      have hb : toByte (48 + (n : Int) - ((n / 10 : Nat) : Int) * 10) = 48 + n % 10 := by
        unfold toByte; omega
      rw [hb, ih (n / 10) (wid - 1) _ (by omega) (by omega) (by omega), hd]
      simp
    · have hn : n < 10 := by omega
      have hc : ¬ ((n : Int) ≥ 10 ∨ wid > 1) := by omega
      have hb : toByte (48 + (n : Int)) = 48 + n := by unfold toByte; omega
      simp only [hc, if_false]
      rw [decimal_small n hn, hb]
      rfl

theorem zeroPad_length (w n : Nat) (h : n < 10 ^ w) (hw : 0 < w) : (zeroPad w n).length = w := by
  have hl := decimal_length_le n w h hw
  unfold zeroPad List.leftpad
  simp
  omega

/-- C14: for every width from 1 to 20 and every `0 <= i < 10^wid`, `itoa` appends to
`buf`, leaving what `buf` holds, the decimal digits of `i` left-padded with `0` to
exactly `wid` characters; for a negative width and every `int` `i >= 0` it appends the
decimal digits of `i` with no padding. The negative widths are those from -1, the one
the code passes for line numbers, down to 18 above the smallest `int`. -/
theorem C14_itoa_fixed_width_and_plain (buf : Bytes) (i : Int) (h0 : 0 ≤ i) :
    (∀ w : Nat, 1 ≤ w → w ≤ 20 → i < 10 ^ w →
      itoa buf i (w : Int) = some (buf ++ zeroPad w i.toNat) ∧ (zeroPad w i.toNat).length = w) ∧
    (∀ wid : Int, wid < 0 → -9223372036854775808 + 18 ≤ wid → i ≤ 9223372036854775807 →
      itoa buf i wid = some (buf ++ decimal i.toNat)) := by
  constructor
  · intro w hw1 hw hi
    refine ⟨itoa_pad buf i w h0 hw1 hw hi, ?_⟩
    obtain ⟨n, rfl⟩ : ∃ n : Nat, i = (n : Int) := ⟨i.toNat, by omega⟩
    exact zeroPad_length w _ (by simpa using (by exact_mod_cast hi : n < 10 ^ w)) (by omega)
  · intro wid hneg hlo hi
    obtain ⟨n, rfl⟩ : ∃ n : Nat, i = (n : Int) := ⟨i.toNat, by omega⟩
    have hn : n < 10 ^ 19 := by
      have : n ≤ 9223372036854775807 := by exact_mod_cast hi
      have h19 : (9223372036854775807 : Nat) < 10 ^ 19 := by norm_num
      omega
    have hlen := decimal_length_le n 19 hn (by omega)
    unfold itoa
    rw [itoaLoop_plain 20 n wid [] (by omega) (by omega) (by omega)]
    simp

/-- C14 at the year 2009 with width 4, the microseconds 123 with width 6 and the line
number 23 with width -1. -/
theorem C14_itoa_witness :
    ((0 : Int) ≤ 2009 ∧ (2009 : Int) < 10 ^ 4) ∧
    itoa (lit "ab") 2009 4 = some (lit "ab2009") ∧
    itoa (lit "ab") 123 6 = some (lit "ab000123") ∧
    itoa (lit "ab") 23 (-1) = some (lit "ab23") ∧
    itoa (lit "ab") 2009 ((4 : Nat) : Int) = some (lit "ab" ++ zeroPad 4 (2009 : Int).toNat) :=
  ⟨by decide, by decide, by decide, by decide,
    ((C14_itoa_fixed_width_and_plain (lit "ab") 2009 (by decide)).1 4 (by decide) (by decide)
      (by decide)).1⟩

/-- Below the widths of the theorem before: with the smallest `int` as width, which no
call in the file passes, `wid--` wraps round to the largest `int` on the first pass for
`i = 10`, the loop then pads until the store `b[bp]` runs out of the twenty cells, and
`itoa` panics. -/
theorem itoa_smallest_width_wraps :
    (-9223372036854775808 : Int) < 0 ∧ (0 : Int) ≤ 10 ∧
    wrap64 (-9223372036854775808 - 1) = 9223372036854775807 ∧
    itoa [] 10 (-9223372036854775808) = none ∧
    itoa [] 10 (-9223372036854775808) ≠ some (decimal 10) := by
  decide

/-! ## Handlers at work -/

theorem dispatch_of_handler (env : Env) (l : Logger) (lvl : LogLvl) (cf : ColorFlag)
    (msg : List Value) (h : LogHandler) (hs : sliceGet (l.LogMap lvl) cf = some h) :
    l.dispatch env lvl cf msg = Logger.callHandler env h l msg := by
  unfold Logger.dispatch
  rw [hs]

theorem callHandler_discard (env : Env) (l : Logger) (msg : List Value) :
    Logger.callHandler env .discard l msg = .ok l := rfl

theorem disableDestinationLvl_two (l : Logger) (lvl : LogLvl) (h : hasTwo l lvl) :
    l.DisableDestinationLvl lvl
      = .ok { l with LogMap := mapSet l.LogMap lvl [genDiscardFunc, genDiscardFunc] } := by
  obtain ⟨hm, -⟩ := h
  match hl : l.LogMap lvl, hm with
  | [a, b], _ =>
    have s1 := (setHandler_two l lvl a b genDiscardFunc hl).2
    have s2 := (setHandler_two { l with LogMap := mapSet l.LogMap lvl [a, genDiscardFunc] } lvl a
      genDiscardFunc genDiscardFunc (by simp [mapSet])).1
    unfold Logger.DisableDestinationLvl
    rw [s1]
    refine s2.trans ?_
    congr 2
    funext x
    simp only [mapSet]
    split <;> rfl

/-- C11: for every logger state in which the level has its two entries and every
value list, `DisableDestinationLvl(lvl)` returns, and afterwards `Log(lvl, values...)`
and `LogC(lvl, cf, values...)` for `cf` `NoColor` or `Color`, and `Error(values...)`
when the level is `ERROR`, return with the logger as it was: no message is queued, the
queue and every other field are unchanged, nothing fails. -/
theorem C11_disabled_level_is_silent (l : Logger) (lvl : LogLvl) (e0 e1 : Env)
    (vals : List Value) (h : hasTwo l lvl) :
    ∃ l1, l.DisableDestinationLvl lvl = .ok l1 ∧
      l1.msgChan = l.msgChan ∧
      l1.Log e0 e1 lvl vals = .ok l1 ∧
      (∀ cf : ColorFlag, cf = NoColor ∨ cf = Color → l1.LogC e0 lvl cf vals = .ok l1) ∧
      (lvl = ERROR → l1.Error e0 e1 vals = .ok l1) := by
  have hd := disableDestinationLvl_two l lvl h
  have hmap : ∀ env (cf : ColorFlag), cf = NoColor ∨ cf = Color →
      Logger.dispatch env { l with LogMap := mapSet l.LogMap lvl [genDiscardFunc, genDiscardFunc] }
        lvl cf vals
        = .ok { l with LogMap := mapSet l.LogMap lvl [genDiscardFunc, genDiscardFunc] } := by
    intro env cf hcf
    rw [dispatch_of_handler env _ lvl cf vals .discard
      (by rcases hcf with rfl | rfl <;> simp [mapSet, sliceGet, NoColor, Color, genDiscardFunc])]
    rfl
  refine ⟨_, hd, rfl, ?_, ?_, ?_⟩
  · unfold Logger.Log
    rw [hmap e0 NoColor (Or.inl rfl)]
    exact hmap e1 Color (Or.inr rfl)
  · intro cf hcf
    exact hmap e0 cf hcf
  · intro he
    subst he
    unfold Logger.Error
    rw [hmap e0 NoColor (Or.inl rfl)]
    exact hmap e1 Color (Or.inr rfl)

/-- C11 at a logger built with `ON_ALL` on sink 1, level `ERROR`, values `x`, `y`. -/
theorem C11_disabled_level_witness :
    hasTwo (exampleLogger (.sink 1) ON_ALL) ERROR ∧
    ∃ l1, (exampleLogger (.sink 1) ON_ALL).DisableDestinationLvl ERROR = .ok l1 ∧
      l1.msgChan = (exampleLogger (.sink 1) ON_ALL).msgChan ∧
      l1.Log exampleEnv exampleEnv ERROR [.str (lit "x"), .str (lit "y")] = .ok l1 ∧
      (∀ cf : ColorFlag, cf = NoColor ∨ cf = Color →
        l1.LogC exampleEnv ERROR cf [.str (lit "x"), .str (lit "y")] = .ok l1) ∧
      (ERROR = ERROR → l1.Error exampleEnv exampleEnv [.str (lit "x"), .str (lit "y")] = .ok l1) :=
  ⟨by decide,
    C11_disabled_level_is_silent (exampleLogger (.sink 1) ON_ALL) ERROR exampleEnv exampleEnv
      [.str (lit "x"), .str (lit "y")] (by decide)⟩

/-! ## The short file name -/

theorem finalSegment_append (pre suf : Bytes) (h : 47 ∉ suf) :
    finalSegment (pre ++ 47 :: suf) = suf := by
  unfold finalSegment
  have hr : (pre ++ 47 :: suf).reverse = suf.reverse ++ 47 :: pre.reverse := by simp
  rw [hr, List.takeWhile_append_of_pos, List.takeWhile_cons_of_neg]
  · simp
  · simp
  · intro a ha
    have : a ∈ suf := List.mem_reverse.mp ha
    simp only [ne_eq, decide_eq_true_eq]
    intro h47
    exact h (h47 ▸ this)

theorem finalSegment_no_slash (file : Bytes) (h : 47 ∉ file) : finalSegment file = file := by
  unfold finalSegment
  rw [List.takeWhile_eq_self_iff.mpr, List.reverse_reverse]
  intro a ha
  have : a ∈ file := List.mem_reverse.mp ha
  simp only [ne_eq, decide_eq_true_eq]
  intro h47
  exact h (h47 ▸ this)

theorem shortLoop_split : ∀ (i : Nat) (pre suf : Bytes), pre.length = i + 1 → 47 ∉ suf →
    shortLoop (pre ++ suf) i
      = if 47 ∈ pre.tail then finalSegment (pre ++ suf) else pre ++ suf := by
  intro i
  induction i with
  | zero =>
    intro pre suf hl hs
    match pre, hl with
    | [a], _ => simp [shortLoop]
  | succ i ih =>
    intro pre suf hl hs
    rcases List.eq_nil_or_concat pre with rfl | ⟨p, c, rfl⟩
    · simp at hl
    · rw [List.concat_eq_append] at hl ⊢
      have hp : p.length = i + 1 := by simpa using hl
      have hne : p ≠ [] := by intro h0; rw [h0] at hp; simp at hp
      have hget : (p ++ [c] ++ suf).get? (i + 1) = some c := by
        rw [List.append_assoc, List.get?_eq_getElem?, List.getElem?_append_right (by omega)]
        have hz : i + 1 - p.length = 0 := by omega
        rw [hz]
        simp
      have htail : (p ++ [c]).tail = p.tail ++ [c] := List.tail_append_of_ne_nil hne
      unfold shortLoop
      rw [hget, htail]
      by_cases hc : c = 47
      · subst hc
        have hdrop : List.drop (i + 2) (p ++ [47] ++ suf) = suf := by
          rw [List.append_assoc]
          have : i + 2 = (p ++ [47]).length := by simp [hp]
          rw [← List.append_assoc, this, List.drop_left]
        have hfin : finalSegment (p ++ [47] ++ suf) = suf := by
          rw [List.append_assoc]
          exact finalSegment_append p suf hs
        rw [if_pos rfl, hdrop, hfin]
        simp
      · have hs2 : 47 ∉ c :: suf := by
          simp only [List.mem_cons, not_or]
          exact ⟨fun h => hc h.symm, hs⟩
        have e : p ++ [c] ++ suf = p ++ (c :: suf) := by simp
        have hmem : (47 ∈ p.tail ++ [c]) ↔ 47 ∈ p.tail := by
          simp only [List.mem_append, List.mem_singleton]
          constructor
          · rintro (h | h)
            · exact h
            · exact absurd h.symm hc
          · exact Or.inl
        have hcne : ¬ (some c = some (47 : Nat)) := by simpa using hc
        rw [if_neg hcne, e, ih p (c :: suf) hp hs2]
        simp only [hmem]

theorem shortFile_eq (file : Bytes) :
    shortFile file = if 47 ∈ file.tail then finalSegment file else file := by
  unfold shortFile
  match file with
  | [] => simp [shortLoop]
  | a :: rest =>
    have h := shortLoop_split rest.length (a :: rest) [] (by simp) (by simp)
    simpa using h

theorem formatHeader_shortfile (flags : Int) (file : Bytes) (line : Int)
    (hf : flags = Lshortfile ∨ flags = or64 Lshortfile Llongfile)
    (hl0 : 0 ≤ line) (hl1 : line ≤ 9223372036854775807) :
    formatHeader flags [] t2009 file line
      = some (shortFile file ++ lit ":" ++ decimal line.toNat ++ lit ": ") := by
  rw [formatHeader_eq flags [] t2009 file line (by decide) (by decide) hl0 hl1]
  rcases hf with rfl | rfl
  · have d1 : ¬ flagSet Lshortfile Ldate := by decide
    have d2 : ¬ flagSet Lshortfile Ltime := by decide
    have d3 : ¬ flagSet Lshortfile Lmicroseconds := by decide
    have d4 : flagSet Lshortfile Lshortfile := by decide
    have d5 : ¬ flagSet Lshortfile LNoStackTrace := by decide
    simp [headerSpec, d1, d2, d3, d4, d5]
  · have d1 : ¬ flagSet (or64 Lshortfile Llongfile) Ldate := by decide
    have d2 : ¬ flagSet (or64 Lshortfile Llongfile) Ltime := by decide
    have d3 : ¬ flagSet (or64 Lshortfile Llongfile) Lmicroseconds := by decide
    have d4 : flagSet (or64 Lshortfile Llongfile) Lshortfile := by decide
    have d5 : ¬ flagSet (or64 Lshortfile Llongfile) LNoStackTrace := by decide
    simp [headerSpec, d1, d2, d3, d4, d5]

/-- C13, what the code does: under `Lshortfile`, alone or with `Llongfile`, the file
name `formatHeader` emits is the value of `short` after the loop of lines 490-496. It
is the final path segment when the path has a `/` after its first character, and the
whole path otherwise; so it is the final segment for every path except one whose only
`/` is its first character, where the code emits the whole path, `/d.go` for `/d.go`,
and the final segment is `d.go`. -/
theorem C13_shortfile_name (file : Bytes) :
    (∀ line : Int, 0 ≤ line → line ≤ 9223372036854775807 →
      formatHeader Lshortfile [] t2009 file line
        = some (shortFile file ++ lit ":" ++ decimal line.toNat ++ lit ": ") ∧
      formatHeader (or64 Lshortfile Llongfile) [] t2009 file line
        = some (shortFile file ++ lit ":" ++ decimal line.toNat ++ lit ": ")) ∧
    shortFile file = (if 47 ∈ file.tail then finalSegment file else file) ∧
    ((¬ ∃ rest, file = 47 :: rest ∧ 47 ∉ rest) → shortFile file = finalSegment file) ∧
    (∀ rest, file = 47 :: rest → 47 ∉ rest →
      shortFile file = file ∧ finalSegment file = rest ∧ shortFile file ≠ finalSegment file) ∧
    formatHeader Lshortfile [] t2009 (lit "/d.go") 23 = some (lit "/d.go:23: ") ∧
    formatHeader (or64 Lshortfile Llongfile) [] t2009 (lit "/d.go") 23
      = some (lit "/d.go:23: ") ∧
    finalSegment (lit "/d.go") = lit "d.go" ∧
    formatHeader (or64 Lshortfile Llongfile) [] t2009 (lit "/a/b/c/d.go") 23
      = some (lit "d.go:23: ") := by
  have hmain := shortFile_eq file
  refine ⟨?_, hmain, ?_, ?_, by decide, by decide, by decide, by decide⟩
  · intro line h0 h1
    exact ⟨formatHeader_shortfile _ file line (Or.inl rfl) h0 h1,
      formatHeader_shortfile _ file line (Or.inr rfl) h0 h1⟩
  · intro hno
    rw [hmain]
    by_cases ht : 47 ∈ file.tail
    · rw [if_pos ht]
    · rw [if_neg ht]
      match file, ht, hno with
      | [], _, _ => rfl
      | a :: rest, ht, hno =>
        have hr : 47 ∉ rest := ht
        have ha : a ≠ 47 := by
          intro h47
          exact hno ⟨rest, by rw [h47], hr⟩
        have hnot : 47 ∉ a :: rest := by
          simp only [List.mem_cons, not_or]
          exact ⟨fun h => ha h.symm, hr⟩
        exact (finalSegment_no_slash _ hnot).symm
  · intro rest hfile hr
    subst hfile
    have h1 : shortFile (47 :: rest) = 47 :: rest := by
      rw [shortFile_eq]
      exact if_neg hr
    have h2 : finalSegment (47 :: rest) = rest := finalSegment_append [] rest hr
    refine ⟨h1, h2, ?_⟩
    rw [h1, h2]
    intro heq
    have := congrArg List.length heq
    simp at this

/-! ## What an enabled handler queues -/

theorem concatInterfaces_foldl (delimiter : Bytes) : ∀ (msg : List Value) (acc : Bytes),
    msg.foldl (fun result v => concatStrings (concatStrings result (sprintV v)) delimiter) acc
      = acc ++ plainPieces delimiter msg := by
  intro msg
  induction msg with
  | nil => intro acc; simp [plainPieces]
  | cons v rest ih =>
    intro acc
    rw [List.foldl_cons, ih]
    simp [plainPieces, concatStrings, List.append_assoc]

theorem concatInterfaces_eq (delimiter : Bytes) (msg : List Value) :
    concatInterfaces delimiter msg = plainPieces delimiter msg := by
  unfold concatInterfaces
  rw [concatInterfaces_foldl]
  rfl

theorem colorConcatInterfaces_eq (cs : List Bytes) (reset delimiter : Bytes) (msg : List Value) :
    colorConcatInterfaces cs reset delimiter msg
      = some (colorConcatSpec cs reset delimiter msg) := by
  unfold colorConcatInterfaces colorConcatSpec
  have h := colorConcatLoop_eq cs delimiter msg 0 []
  simp only [Nat.sub_zero, List.nil_append] at h
  rw [h]
  simp [concatStrings]

theorem sendLine_some (l : Logger) (hdr : Bytes) (lvl : LogLvl) (cf : ColorFlag) (text : Bytes)
    (hopen : l.msgChan.closed = false) (hroom : l.msgChan.buf.length < l.msgChan.cap) :
    l.sendLine (some hdr) lvl cf text = .ok (l.enqueued ⟨lvl, cf, hdr ++ text ++ [10]⟩) := by
  simp [Logger.sendLine, Chan.send, concatStrings, hopen, hroom, Logger.enqueued]

theorem log_of_header (env : Env) (l : Logger) (lvl : LogLvl) (cf : ColorFlag) (text hdr : Bytes)
    (hh : getSystemInfo env l.settingsFlags (wrap64 (l.callDepth + 5)) = some hdr)
    (hopen : l.msgChan.closed = false) (hroom : l.msgChan.buf.length < l.msgChan.cap) :
    l.log env lvl cf text = .ok (l.enqueued ⟨lvl, cf, hdr ++ text ++ [10]⟩) :=
  (congrArg (fun g => l.sendLine g lvl cf text) hh).trans
    (sendLine_some l hdr lvl cf text hopen hroom)

theorem callHandler_logFunc (env : Env) (l : Logger) (lvl : LogLvl) (msg : List Value)
    (hdr : Bytes)
    (hh : getSystemInfo env l.settingsFlags (wrap64 (l.callDepth + 5)) = some hdr)
    (hopen : l.msgChan.closed = false) (hroom : l.msgChan.buf.length < l.msgChan.cap) :
    Logger.callHandler env (genLogFunc lvl) l msg
      = .ok (l.enqueued ⟨lvl, NoColor, hdr ++ plainPieces l.delimiter msg ++ [10]⟩) := by
  have h := log_of_header env l lvl NoColor (concatInterfaces l.delimiter msg) hdr hh hopen hroom
  have e : concatInterfaces l.delimiter msg = plainPieces l.delimiter msg :=
    concatInterfaces_eq l.delimiter msg
  show l.log env lvl NoColor (concatInterfaces l.delimiter msg) = _
  rw [h, e]

theorem callHandler_colorLogFunc (env : Env) (l : Logger) (lvl : LogLvl) (csn : CSN)
    (msg : List Value) (hdr reset : Bytes)
    (hreset : sliceGet (l.colorMap .CS_RESET) 0 = some reset)
    (hh : getSystemInfo env l.settingsFlags (wrap64 (l.callDepth + 5)) = some hdr)
    (hopen : l.msgChan.closed = false) (hroom : l.msgChan.buf.length < l.msgChan.cap) :
    Logger.callHandler env (genColorLogFunc lvl csn) l msg
      = .ok (l.enqueued
          ⟨lvl, Color, hdr ++ colorConcatSpec (l.colorMap csn) reset l.delimiter msg ++ [10]⟩) := by
  have h := log_of_header env l lvl Color
    (colorConcatSpec (l.colorMap csn) reset l.delimiter msg) hdr hh hopen hroom
  have hc := colorConcatInterfaces_eq (l.colorMap csn) reset l.delimiter msg
  show (match sliceGet (l.colorMap .CS_RESET) 0 with
    | none => Except.error Fault.panic
    | some reset =>
      match colorConcatInterfaces (l.colorMap csn) reset l.delimiter msg with
      | none => Except.error Fault.panic
      | some s => l.log env lvl Color s) = _
  rw [hreset]
  simp only [hc]
  exact h

/-- C12, as the code has it: on a logger whose two `INFO` handlers are the enabled
ones (as after construction with `ON_ALL`), with an open queue that has two free slots
and a colour table that has a reset sequence, `Info(values...)` queues exactly two
messages, first `(INFO, NoColor)` and then `(INFO, Color)`, and changes nothing else.
The plain text is the header, then each value's default string form followed by the
delimiter, nothing trimmed, then the newline. The coloured text is the header, then
for each value the prefix of its index while prefixes remain, its default string form
and the delimiter, then the reset sequence, then the newline: it ends in the reset
sequence and the newline. -/
theorem C12_info_queues_plain_and_coloured (e0 e1 : Env) (l : Logger) (vals : List Value)
    (h0 h1 reset : Bytes)
    (hmap : l.LogMap INFO = [genLogFunc INFO, genColorLogFunc INFO (LoggerColorSchemeDetached INFO)])
    (hopen : l.msgChan.closed = false) (hroom : l.msgChan.buf.length + 2 ≤ l.msgChan.cap)
    (hreset : sliceGet (l.colorMap .CS_RESET) 0 = some reset)
    (hh0 : getSystemInfo e0 l.settingsFlags (wrap64 (l.callDepth + 5)) = some h0)
    (hh1 : getSystemInfo e1 l.settingsFlags (wrap64 (l.callDepth + 5)) = some h1) :
    l.Info e0 e1 vals
      = .ok { l with msgChan := { l.msgChan with buf := l.msgChan.buf ++
          [⟨INFO, NoColor, h0 ++ plainPieces l.delimiter vals ++ [10]⟩,
           ⟨INFO, Color,
            h1 ++ (colorPieces (l.colorMap (LoggerColorSchemeDetached INFO)) l.delimiter 0 vals
              ++ reset) ++ [10]⟩] } } := by
  have s0 : sliceGet (l.LogMap INFO) NoColor = some (genLogFunc INFO) := by rw [hmap]; rfl
  have c0 := callHandler_logFunc e0 l INFO vals h0 hh0 hopen (by omega)
  have s1 : sliceGet ((l.enqueued ⟨INFO, NoColor, h0 ++ plainPieces l.delimiter vals ++ [10]⟩).LogMap
      INFO) Color = some (genColorLogFunc INFO (LoggerColorSchemeDetached INFO)) := by
    show sliceGet (l.LogMap INFO) Color = _
    rw [hmap]; rfl
  have c1 := callHandler_colorLogFunc e1
    (l.enqueued ⟨INFO, NoColor, h0 ++ plainPieces l.delimiter vals ++ [10]⟩) INFO
    (LoggerColorSchemeDetached INFO) vals h1 reset hreset hh1 hopen
    (by show (l.msgChan.buf ++ [_]).length < l.msgChan.cap; simp; omega)
  unfold Logger.Info
  rw [dispatch_of_handler e0 l INFO NoColor vals _ s0, c0]
  show Logger.dispatch e1 _ INFO Color vals = _
  rw [dispatch_of_handler e1 _ INFO Color vals _ s1, c1]
  simp [Logger.enqueued, colorConcatSpec]

/-- C12 at a logger built with `ON_ALL` on sink 1 with capacity 10: `Info("x", "y")`. -/
theorem C12_info_witness :
    ((exampleLogger (.sink 1) ON_ALL).LogMap INFO
        = [genLogFunc INFO, genColorLogFunc INFO (LoggerColorSchemeDetached INFO)] ∧
      (exampleLogger (.sink 1) ON_ALL).msgChan.cap = 10) ∧
    ∃ l1, (exampleLogger (.sink 1) ON_ALL).Info exampleEnv exampleEnv
        [.str (lit "x"), .str (lit "y")] = .ok l1 ∧
      l1.msgChan.buf = [⟨INFO, NoColor, lit "x y " ++ [10]⟩,
        ⟨INFO, Color, lit "REDx GREENy RESET" ++ [10]⟩] :=
  ⟨⟨rfl, rfl⟩, _,
    C12_info_queues_plain_and_coloured exampleEnv exampleEnv (exampleLogger (.sink 1) ON_ALL)
      [.str (lit "x"), .str (lit "y")] [] [] (lit "RESET") rfl rfl (by decide) rfl rfl rfl,
    by decide⟩

/-- C12 fails as stated: with capacity 10 and the prefixes `RED`, `GREEN` and reset
`RESET`, `Info("x", "y")` queues the plain text `x y ` and the coloured text
`REDx GREENy RESET`, each with its newline; the coloured text does not end in the
positional content `x y `, nor in the delimiter, before the newline. And on a logger
built with `ON_ALL` and a colour table without a reset sequence, `Info("x", "y")`
panics on `l.colorMap[colormap.CS_RESET][0]`. -/
theorem C12_coloured_text_counterexample :
    ∃ l1, (exampleLogger (.sink 1) ON_ALL).Info exampleEnv exampleEnv
        [.str (lit "x"), .str (lit "y")] = .ok l1 ∧
      l1.msgChan.buf = [⟨INFO, NoColor, lit "x y " ++ [10]⟩,
        ⟨INFO, Color, lit "REDx GREENy RESET" ++ [10]⟩] ∧
      ¬ List.IsSuffix (lit "x y " ++ [10]) (lit "REDx GREENy RESET" ++ [10]) ∧
      ¬ List.IsSuffix (lit " " ++ [10]) (lit "REDx GREENy RESET" ++ [10]) ∧
      List.IsSuffix (lit "RESET" ++ [10]) (lit "REDx GREENy RESET" ++ [10]) ∧
      ∃ l2, NewLogger exampleLimit (.sink 1) ON_ALL 10 0 0 (lit " ") (fun _ => []) = .ok l2 ∧
        l2.Info exampleEnv exampleEnv [.str (lit "x"), .str (lit "y")] = .error .panic :=
  ⟨_, rfl, rfl, by decide, by decide, by decide, _, rfl, rfl⟩

/-! ## The sequence counter -/

theorem pStep_of_handler (env : Env) (l : Logger) (cf : ColorFlag) (h : LogHandler)
    (hs : sliceGet (l.LogMap INFO) cf = some h) :
    l.pStep env cf
      = Logger.callHandler env h { l with pGen := wrap64 (l.pGen + 1) }
          [.str (sprintV (.int (wrap64 (l.pGen + 1))))] := by
  unfold Logger.pStep
  rw [hs]
  rfl

/-- C15, what the code does: on a logger whose two `INFO` handlers are the enabled
ones, with an open queue that has two free slots and a colour table that has a reset
sequence, one call of `P()` calls `l.pGen()` twice: the plain message carries the
counter plus one, the coloured message the counter plus two, and the counter has
advanced by two. -/
theorem C15_P_draws_two_integers (e0 e1 : Env) (l : Logger) (h0 h1 reset : Bytes)
    (hmap : l.LogMap INFO = [genLogFunc INFO, genColorLogFunc INFO (LoggerColorSchemeDetached INFO)])
    (hopen : l.msgChan.closed = false) (hroom : l.msgChan.buf.length + 2 ≤ l.msgChan.cap)
    (hreset : sliceGet (l.colorMap .CS_RESET) 0 = some reset)
    (hh0 : getSystemInfo e0 l.settingsFlags (wrap64 (l.callDepth + 5)) = some h0)
    (hh1 : getSystemInfo e1 l.settingsFlags (wrap64 (l.callDepth + 5)) = some h1) :
    l.P e0 e1
      = .ok { l with
          pGen := wrap64 (wrap64 (l.pGen + 1) + 1),
          msgChan := { l.msgChan with buf := l.msgChan.buf ++
            [⟨INFO, NoColor,
              h0 ++ plainPieces l.delimiter [.str (sprintV (.int (wrap64 (l.pGen + 1))))]
                ++ [10]⟩,
             ⟨INFO, Color,
              h1 ++ (colorPieces (l.colorMap (LoggerColorSchemeDetached INFO)) l.delimiter 0
                  [.str (sprintV (.int (wrap64 (wrap64 (l.pGen + 1) + 1))))] ++ reset)
                ++ [10]⟩] } } := by
  have s0 : sliceGet (l.LogMap INFO) NoColor = some (genLogFunc INFO) := by rw [hmap]; rfl
  have c0 := callHandler_logFunc e0 { l with pGen := wrap64 (l.pGen + 1) } INFO
    [.str (sprintV (.int (wrap64 (l.pGen + 1))))] h0 hh0 hopen
    (by show l.msgChan.buf.length < l.msgChan.cap; omega)
  have p0 := (pStep_of_handler e0 l NoColor _ s0).trans c0
  have s1 : sliceGet ((Logger.enqueued { l with pGen := wrap64 (l.pGen + 1) }
      ⟨INFO, NoColor,
        h0 ++ plainPieces l.delimiter [.str (sprintV (.int (wrap64 (l.pGen + 1))))] ++ [10]⟩).LogMap
      INFO) Color = some (genColorLogFunc INFO (LoggerColorSchemeDetached INFO)) := by
    show sliceGet (l.LogMap INFO) Color = _
    rw [hmap]; rfl
  have c1 := callHandler_colorLogFunc e1
    { (Logger.enqueued { l with pGen := wrap64 (l.pGen + 1) }
        ⟨INFO, NoColor,
          h0 ++ plainPieces l.delimiter [.str (sprintV (.int (wrap64 (l.pGen + 1))))] ++ [10]⟩)
      with pGen := wrap64 (wrap64 (l.pGen + 1) + 1) }
    INFO (LoggerColorSchemeDetached INFO)
    [.str (sprintV (.int (wrap64 (wrap64 (l.pGen + 1) + 1))))] h1 reset hreset hh1 hopen
    (by show (l.msgChan.buf ++ [_]).length < l.msgChan.cap; simp; omega)
  have p1 := (pStep_of_handler e1 _ Color _ s1).trans c1
  unfold Logger.P
  rw [p0]
  show Logger.pStep e1 _ Color = _
  rw [p1]
  simp [Logger.enqueued, colorConcatSpec]

/-- C15 at a logger built with `ON_ALL` on sink 1 whose counter is 0: the first call of
`P()` queues the plain text `1` and the coloured text `2`, the second call the plain
text `3` and the coloured text `4`. -/
theorem C15_P_witness :
    ((exampleLogger (.sink 1) ON_ALL).LogMap INFO
        = [genLogFunc INFO, genColorLogFunc INFO (LoggerColorSchemeDetached INFO)] ∧
      (exampleLogger (.sink 1) ON_ALL).pGen = 0) ∧
    ∃ l1 l2, (exampleLogger (.sink 1) ON_ALL).P exampleEnv exampleEnv = .ok l1 ∧
      l1.msgChan.buf = [⟨INFO, NoColor, lit "1 " ++ [10]⟩,
        ⟨INFO, Color, lit "RED2 RESET" ++ [10]⟩] ∧
      l1.P exampleEnv exampleEnv = .ok l2 ∧
      l2.msgChan.buf = [⟨INFO, NoColor, lit "1 " ++ [10]⟩,
        ⟨INFO, Color, lit "RED2 RESET" ++ [10]⟩,
        ⟨INFO, NoColor, lit "3 " ++ [10]⟩,
        ⟨INFO, Color, lit "RED4 RESET" ++ [10]⟩] :=
  ⟨⟨rfl, rfl⟩, _, _,
    C15_P_draws_two_integers exampleEnv exampleEnv (exampleLogger (.sink 1) ON_ALL) [] []
      (lit "RESET") rfl rfl (by decide) rfl rfl rfl,
    by decide, rfl, by decide⟩

end Gologger
